import Mathlib

/-!
# kubelet-summary-exporter: the scraper collector

A shallow embedding of `pkg/scraper/scraper.go`: the `Summary` schema and its
decoding by `encoding/json`, the `Scraper` collector with `NewScraper`,
`Describe` and `Collect`, and the properties of the collection protocol.

Conventions of the embedding.

* The outside world of one `Collect` invocation (URL validation done by
  `http.NewRequest`, the token file, the HTTP round trip, reading the body) is
  an explicit `Env` of oracles, consulted with the arguments the source passes.
* A channel is the list of values sent on it, in order.
* `float64` quantities that are counts or byte sizes are carried as the
  integer they hold: `errCnt` is the number of increments (which the `float64`
  field represents exactly below `2 ^ 53`) and a sample value `n` stands for
  `float64(n)`.
* A response body is represented by what the syntax check of `encoding/json`
  makes of its bytes: `none` for bytes that are not a JSON text, `some j` for
  the value tree `j` of a valid text.
-/

namespace KSE

/-! ## JSON value trees -/

/-- Value tree of a JSON text. A number literal is kept in the form the
decoder distinguishes: `int n` is a literal without fraction or exponent
(value `n`), `float lit` a literal with a fraction or an exponent part. -/
inductive JSON where
  | null
  | bool (b : Bool)
  | int (n : Int)
  | float (lit : String)
  | str (s : String)
  | arr (items : List JSON)
  | obj (members : List (String × JSON))

/-! ## The Summary schema (scraper.go, lines 149-243) -/

/-- Go `type Volume struct`: the two decoded fields, both `int64`. -/
structure Volume where
  UsedBytes : Int
  AvailableBytes : Int
deriving DecidableEq, Repr

/-- The anonymous struct type of the field `Pod.PodRef`. -/
structure PodRef where
  Name : String
  Namespace : String
deriving DecidableEq, Repr

/-- Go `type Pod struct`; `EphemeralStorage *Volume` is a nullable pointer. -/
structure Pod where
  PodRef : PodRef
  EphemeralStorage : Option Volume
deriving DecidableEq, Repr

/-- Go `type Node struct`. -/
structure Node where
  NodeName : String
deriving DecidableEq, Repr

/-- A Go slice as the decoder sees it: the elements of the backing array that
have ever been written (`backing`) and the current length (`len`). Elements of
the backing array past `backing` are zero values. -/
structure Slice (α : Type) where
  backing : List α
  len : Nat
deriving DecidableEq, Repr

/-- The elements a `range` loop visits: the first `len` of the backing array. -/
def Slice.elems {α : Type} (s : Slice α) : List α := s.backing.take s.len

/-- The nil slice. -/
def Slice.nil {α : Type} : Slice α := ⟨[], 0⟩

/-- The slice holding exactly the elements `xs`. -/
def Slice.ofList {α : Type} (xs : List α) : Slice α := ⟨xs, xs.length⟩

/-- Go `type Summary struct`; `Pods []*Pod` is a slice of nullable pointers. -/
structure Summary where
  Node : Node
  Pods : Slice (Option Pod)
deriving DecidableEq, Repr

/-- Zero value of `Volume`. -/
def Volume.zero : Volume := ⟨0, 0⟩

/-- Zero value of `Pod`. -/
def Pod.zero : Pod := ⟨⟨"", ""⟩, none⟩

/-- Zero value of `Summary` (the `var summary Summary` of `parse`). -/
def Summary.zero : Summary := ⟨⟨""⟩, Slice.nil⟩

/-! ## Decoding with encoding/json (`json.Unmarshal(body, &summary)`)

The decoder is the one `encoding/json` derives from the struct declarations and
their `json:"..."` tags. It decodes *into* the current value of its target:
`null` leaves a string, number or struct untouched and resets a pointer or a
slice; an object sets the fields its members select, in document order, and
skips the members that select none; a value of the wrong JSON type is an
`UnmarshalTypeError`. `Unmarshal` keeps decoding after a type error and reports
it at the end, and `parse` then drops the partly filled value, so the result is
the same as stopping at the first error. -/

/-- The two ways `json.Unmarshal` fails: its up-front syntax check
(`*json.SyntaxError`) and a value that does not fit its target
(`*json.UnmarshalTypeError`). -/
inductive ParseError where
  | syntaxError
  | typeError
deriving DecidableEq, Repr

/-- Field selected by an object key among the JSON names of a struct: the
field with exactly this name, else the first field whose name equals the key
under the name folding `fold` of `encoding/json` (its case-insensitive match). -/
def findField (fold : String → String) (names : List String) (key : String) : Option String :=
  match names.find? (fun n => n == key) with
  | some n => some n
  | none => names.find? (fun n => fold n == fold key)

/-- Decoding into a Go `string`. -/
def decodeString (cur : String) : JSON → Except ParseError String
  | .null => .ok cur
  | .str s => .ok s
  | _ => .error .typeError

/-- Decoding into a Go `int64`: the literal goes through
`strconv.ParseInt(lit, 10, 64)`, which rejects a fraction, an exponent and a
value outside the 64-bit signed range. -/
def decodeInt64 (cur : Int) : JSON → Except ParseError Int
  | .null => .ok cur
  | .int n => if -(2 : Int) ^ 63 ≤ n ∧ n < (2 : Int) ^ 63 then .ok n else .error .typeError
  | _ => .error .typeError

/-- Decoding into a struct: each member of an object is handed, in document
order, to the struct's `setField`; `null` leaves the struct as it is. -/
def decodeStruct {α : Type} (setField : α → String → JSON → Except ParseError α)
    (cur : α) : JSON → Except ParseError α
  | .null => .ok cur
  | .obj members => members.foldlM (fun acc kv => setField acc kv.1 kv.2) cur
  | _ => .error .typeError

/-- Decoding into a pointer: `null` sets it to nil, any other value is decoded
into the pointee, which is allocated as a zero value when the pointer is nil. -/
def decodePtr {α : Type} (zero : α) (dec : α → JSON → Except ParseError α)
    (cur : Option α) : JSON → Except ParseError (Option α)
  | .null => .ok none
  | j => (dec (cur.getD zero) j).map some

/-- The element loop of an array decoded into a slice: item `i` is decoded
into element `i` of the backing array (a zero value once the array is
exhausted); elements past the last item stay in the backing array. -/
def decodeElems {α : Type} (zero : α) (dec : α → JSON → Except ParseError α) :
    List α → List JSON → Except ParseError (List α)
  | backing, [] => .ok backing
  | [], j :: js => do
      let x ← dec zero j
      let rest ← decodeElems zero dec [] js
      pure (x :: rest)
  | x0 :: backing, j :: js => do
      let x ← dec x0 j
      let rest ← decodeElems zero dec backing js
      pure (x :: rest)

/-- Decoding into a slice: `null` gives the nil slice, the empty array a fresh
empty slice, a non-empty array runs `decodeElems` and sets the length to the
number of items. -/
def decodeSlice {α : Type} (zero : α) (dec : α → JSON → Except ParseError α)
    (cur : Slice α) : JSON → Except ParseError (Slice α)
  | .null => .ok Slice.nil
  | .arr [] => .ok ⟨[], 0⟩
  | .arr (j :: js) => do
      let backing ← decodeElems zero dec cur.backing (j :: js)
      pure ⟨backing, (j :: js).length⟩
  | _ => .error .typeError

/-- JSON names of the fields of `Volume`, in declaration order. -/
def volumeFields : List String := ["usedBytes", "availableBytes"]

/-- JSON names of the fields of the `PodRef` struct. -/
def podRefFields : List String := ["name", "namespace"]

/-- JSON names of the fields of `Pod`. -/
def podFields : List String := ["podRef", "ephemeral-storage"]

/-- JSON names of the fields of `Node`. -/
def nodeFields : List String := ["nodeName"]

/-- JSON names of the fields of `Summary`. -/
def summaryFields : List String := ["node", "pods"]

/-- One member of an object decoded into a `Volume`. -/
def setVolumeField (fold : String → String) (v : Volume) (key : String) (j : JSON) :
    Except ParseError Volume :=
  match findField fold volumeFields key with
  | some "usedBytes" => (decodeInt64 v.UsedBytes j).map (fun n => { v with UsedBytes := n })
  | some "availableBytes" =>
      (decodeInt64 v.AvailableBytes j).map (fun n => { v with AvailableBytes := n })
  | _ => .ok v

/-- Decoding into a `Volume`. -/
def decodeVolume (fold : String → String) : Volume → JSON → Except ParseError Volume :=
  decodeStruct (setVolumeField fold)

/-- One member of an object decoded into a `PodRef`. -/
def setPodRefField (fold : String → String) (r : PodRef) (key : String) (j : JSON) :
    Except ParseError PodRef :=
  match findField fold podRefFields key with
  | some "name" => (decodeString r.Name j).map (fun s => { r with Name := s })
  | some "namespace" => (decodeString r.Namespace j).map (fun s => { r with Namespace := s })
  | _ => .ok r

/-- Decoding into a `PodRef`. -/
def decodePodRef (fold : String → String) : PodRef → JSON → Except ParseError PodRef :=
  decodeStruct (setPodRefField fold)

/-- One member of an object decoded into a `Pod`. -/
def setPodField (fold : String → String) (p : Pod) (key : String) (j : JSON) :
    Except ParseError Pod :=
  match findField fold podFields key with
  | some "podRef" => (decodePodRef fold p.PodRef j).map (fun r => { p with PodRef := r })
  | some "ephemeral-storage" =>
      (decodePtr Volume.zero (decodeVolume fold) p.EphemeralStorage j).map
        (fun v => { p with EphemeralStorage := v })
  | _ => .ok p

/-- Decoding into a `Pod`. -/
def decodePod (fold : String → String) : Pod → JSON → Except ParseError Pod :=
  decodeStruct (setPodField fold)

/-- One member of an object decoded into a `Node`. -/
def setNodeField (fold : String → String) (n : Node) (key : String) (j : JSON) :
    Except ParseError Node :=
  match findField fold nodeFields key with
  | some "nodeName" => (decodeString n.NodeName j).map (fun s => { n with NodeName := s })
  | _ => .ok n

/-- Decoding into a `Node`. -/
def decodeNode (fold : String → String) : Node → JSON → Except ParseError Node :=
  decodeStruct (setNodeField fold)

/-- Decoding into the `[]*Pod` slice. -/
def decodePods (fold : String → String) :
    Slice (Option Pod) → JSON → Except ParseError (Slice (Option Pod)) :=
  decodeSlice none (decodePtr Pod.zero (decodePod fold))

/-- One member of an object decoded into a `Summary`. -/
def setSummaryField (fold : String → String) (s : Summary) (key : String) (j : JSON) :
    Except ParseError Summary :=
  match findField fold summaryFields key with
  | some "node" => (decodeNode fold s.Node j).map (fun n => { s with Node := n })
  | some "pods" => (decodePods fold s.Pods j).map (fun ps => { s with Pods := ps })
  | _ => .ok s

/-- Decoding into a `Summary`. -/
def decodeSummary (fold : String → String) : Summary → JSON → Except ParseError Summary :=
  decodeStruct (setSummaryField fold)

/-- Go `func (s *Scraper) parse(body []byte) (*Summary, error)`:
`json.Unmarshal` into a zero `Summary`; the summary is returned only when
there is no error. The receiver is not used. -/
def parse (fold : String → String) (body : Option JSON) : Except ParseError Summary :=
  match body with
  | none => .error .syntaxError
  | some j => decodeSummary fold Summary.zero j

/-- ASCII lower-casing, a name folding that agrees with the one of
`encoding/json` on ASCII keys without `k` and `s` look-alikes. -/
def asciiFold (s : String) : String := String.mk (s.data.map Char.toLower)

/-- The document of the decoding example:
`{"node":{"nodeName":"ip-1"},"pods":[{"podRef":{"name":"p1","namespace":"ns1"},
"ephemeral-storage":{"usedBytes":36864,"availableBytes":92321636352}}]}`. -/
def exampleDoc : JSON :=
  .obj [("node", .obj [("nodeName", .str "ip-1")]),
        ("pods", .arr [.obj [("podRef", .obj [("name", .str "p1"), ("namespace", .str "ns1")]),
                             ("ephemeral-storage",
                               .obj [("usedBytes", .int 36864),
                                     ("availableBytes", .int 92321636352)])]])]

/-! ## The collector (scraper.go, lines 22-138) -/

/-- Go `*prometheus.Desc`, as built by `prometheus.NewDesc` without constant
labels: fully qualified name, help text, names of the variable labels. -/
structure Desc where
  fqName : String
  help : String
  variableLabels : List String
deriving DecidableEq, Repr

/-- Go `prometheus.BuildFQName`: the non-empty parts joined by `_`, and the
empty string when `name` is empty. -/
def BuildFQName (ns subsystem name : String) : String :=
  if name = "" then ""
  else if ns ≠ "" ∧ subsystem ≠ "" then ns ++ "_" ++ subsystem ++ "_" ++ name
  else if ns ≠ "" then ns ++ "_" ++ name
  else if subsystem ≠ "" then subsystem ++ "_" ++ name
  else name

/-- Go `prometheus.ValueType`, the two kinds the collector uses. -/
inductive ValueType where
  | CounterValue
  | GaugeValue
deriving DecidableEq, Repr

/-- A constant metric sample: descriptor, kind, value and the values of the
variable labels, in the order of the descriptor's label names. The value `n`
stands for `float64(n)`. -/
structure Metric where
  desc : Desc
  valueType : ValueType
  value : Int
  labelValues : List String
deriving DecidableEq, Repr

/-- Go `prometheus.MustNewConstMetric`: the sample, or `none` for the panic it
raises when the number of label values differs from the number of variable
labels of the descriptor. -/
def MustNewConstMetric (desc : Desc) (valueType : ValueType) (value : Int)
    (labelValues : List String) : Option Metric :=
  if labelValues.length = desc.variableLabels.length then
    some ⟨desc, valueType, value, labelValues⟩
  else none

/-- Go `type Scraper struct`, without the logger (log lines are part of the
result of `Collect`). `timeout` is a `time.Duration` in nanoseconds and
`errCnt` the count the `float64` field holds. -/
structure Scraper where
  tokenPath : String
  timeout : Int
  targetIP : String
  storage : Desc
  errors : Desc
  errCnt : Nat
deriving DecidableEq, Repr

/-- Go `func NewScraper(logger, targetIP, tokenPath, timeout) *Scraper`; the
field `errCnt` is not set and so starts at its zero value. -/
def NewScraper (targetIP : String) (tokenPath : String) (timeout : Int) : Scraper :=
  { tokenPath := tokenPath
    timeout := timeout
    targetIP := targetIP
    storage :=
      ⟨BuildFQName "kube_pod" "" "ephemeral_storage_used_bytes",
       "Ephemeral storage used in bytes", ["node", "namespace", "pod"]⟩
    errors :=
      ⟨BuildFQName "kubelet_summary_exporter" "" "errors",
       "Errors scraping kubelet stats summary", ["type"]⟩
    errCnt := 0 }

/-- Go `func (s *Scraper) Describe(ch chan<- *prometheus.Desc)`: the
descriptors sent on `ch`, in order, and the collector afterwards. -/
def Describe (s : Scraper) : List Desc × Scraper :=
  ([s.storage, s.errors], s)

/-- An HTTP request as `Collect` builds it. -/
structure Request where
  Method : String
  URL : String
  Header : List (String × String)
deriving DecidableEq, Repr

/-- Go `req.Header.Add(key, value)`. -/
def Request.addHeader (r : Request) (key value : String) : Request :=
  { r with Header := r.Header ++ [(key, value)] }

/-- An HTTP response: status code, and the outcome of `io.ReadAll(resp.Body)`:
`none` for a read error, `some b` for the bytes read, `b` being what the JSON
syntax check makes of them. -/
structure Response where
  StatusCode : Int
  Body : Option (Option JSON)

/-- The world outside one invocation of `Collect`: whether `http.NewRequest`
accepts a URL, what `os.ReadFile` returns for a path (`none`: an error), and
what `client.Do` returns for a timeout and a request (`none`: an error). -/
structure Env where
  validURL : String → Bool
  ReadFile : String → Option String
  Do : Int → Request → Option Response

/-- Go `http.NewRequest(method, url, nil)`. -/
def NewRequest (env : Env) (method url : String) : Option Request :=
  if env.validURL url then some ⟨method, url, []⟩ else none

/-- Levels of the log lines `Collect` writes. -/
inductive Level where
  | Warn
  | Error
  | Fatal
deriving DecidableEq, Repr

/-- How an invocation of `Collect` ends: it returns to its caller, or
`logger.Fatal` ends the process (`zap` calls `os.Exit(1)` after writing the
line), or `MustNewConstMetric` panics. -/
inductive Ending where
  | returned
  | exited
  | panicked
deriving DecidableEq, Repr

/-- Everything one invocation of `Collect` does: the collector afterwards, the
samples sent on `ch` in order, the requests handed to `client.Do`, the log
lines, and how the invocation ends. -/
structure Outcome where
  scraper : Scraper
  emitted : List Metric
  sent : List Request
  logs : List (Level × String)
  ending : Ending

/-- Go `http.StatusOK`. -/
def StatusOK : Int := 200

/-- The URL `Collect` requests. -/
def summaryURL (targetIP : String) : String :=
  "https://" ++ targetIP ++ ":10250/stats/summary"

/-- The `for _, pod := range summary.Pods` loop of `Collect` (lines 124-137):
the samples sent, and whether `MustNewConstMetric` panicked, which ends the
loop. -/
def collectPods (storage : Desc) (nodeName : String) : List (Option Pod) → List Metric × Bool
  | [] => ([], false)
  | none :: pods => collectPods storage nodeName pods
  | some pod :: pods =>
    match pod.EphemeralStorage with
    | none => collectPods storage nodeName pods
    | some vol =>
      match MustNewConstMetric storage .GaugeValue vol.UsedBytes
          [nodeName, pod.PodRef.Namespace, pod.PodRef.Name] with
      | none => ([], true)
      | some m => ((m :: (collectPods storage nodeName pods).1),
                   (collectPods storage nodeName pods).2)

/-- The three branches of `Collect` that count a failure (lines 75-83, 87-95,
101-109): `s.errCnt++`, one counter sample carrying the new count and the
label `type`, a log line, return. -/
def countedFailure (s : Scraper) (sent : List Request) (type : String)
    (line : Level × String) : Outcome :=
  let s1 := { s with errCnt := s.errCnt + 1 }
  match MustNewConstMetric s1.errors .CounterValue s1.errCnt [type] with
  | none => ⟨s1, [], sent, [], .panicked⟩
  | some m => ⟨s1, [m], sent, [line], .returned⟩

/-- Go `func (s *Scraper) Collect(ch chan<- prometheus.Metric)` (lines 56-138). -/
def Collect (fold : String → String) (env : Env) (s : Scraper) : Outcome :=
  match NewRequest env "GET" (summaryURL s.targetIP) with
  | none => ⟨s, [], [], [(.Error, "failed to create request")], .returned⟩
  | some req0 =>
    match env.ReadFile s.tokenPath with
    | none => ⟨s, [], [], [(.Fatal, "unable to load specified token")], .exited⟩
    | some token =>
      let req := req0.addHeader "Authorization" ("Bearer " ++ token)
      match env.Do s.timeout req with
      | none =>
        countedFailure s [req] "request error"
          (.Warn, "failed to make request to stats/summary")
      | some resp =>
        if resp.StatusCode ≠ StatusOK then
          countedFailure s [req] "status error"
            (.Warn, "got unexpected status for stats/summary")
        else
          match resp.Body with
          | none =>
            countedFailure s [req] "read body error" (.Error, "failed to read body")
          | some body =>
            match parse fold body with
            | .error _ =>
              match MustNewConstMetric s.errors .CounterValue s.errCnt ["parse body error"] with
              | none => ⟨s, [], [req], [], .panicked⟩
              | some m => ⟨s, [m], [req], [(.Error, "failed to parse body")], .returned⟩
            | .ok summary =>
              match collectPods s.storage summary.Node.NodeName summary.Pods.elems with
              | (ms, true) => ⟨s, ms, [req], [], .panicked⟩
              | (ms, false) => ⟨s, ms, [req], [], .returned⟩

/-- A collector whose error count has reached `t`: `errCnt` is the only field
`Collect` ever writes. -/
def Scraper.atTally (s : Scraper) (t : Nat) : Scraper := { s with errCnt := t }

/-- One invocation of the collector by the registry: `Describe`, or `Collect`
in some state of the outside world. -/
inductive Call where
  | describe
  | collect (env : Env)

/-- The outcome of one invocation. -/
def invoke (fold : String → String) (s : Scraper) : Call → Outcome
  | .describe => ⟨(Describe s).2, [], [], [], .returned⟩
  | .collect env => Collect fold env s

/-- Successive invocations on one collector, each starting from the state the
previous one left; an invocation that does not return is the last one. -/
def runCalls (fold : String → String) : Scraper → List Call → List Outcome
  | _, [] => []
  | s, c :: cs =>
    if (invoke fold s c).ending = .returned then
      invoke fold s c :: runCalls fold (invoke fold s c).scraper cs
    else [invoke fold s c]

/-- The collector after a run of invocations. -/
def finalScraper (fold : String → String) : Scraper → List Call → Scraper
  | s, [] => s
  | s, c :: cs =>
    if (invoke fold s c).ending = .returned then finalScraper fold (invoke fold s c).scraper cs
    else (invoke fold s c).scraper

/-- The values of the error-counter samples in a list of samples, in order. -/
def counterValues (ms : List Metric) : List Int :=
  (ms.filter (fun m => m.valueType = .CounterValue)).map (fun m => m.value)

/-! ## The properties as the specification words them -/

/-- The gauge sample the specification asks for one pod:
`kube_pod_ephemeral_storage_used_bytes{node, namespace, pod} usedBytes`. -/
def gaugeSample (node ns pod : String) (usedBytes : Int) : Metric :=
  ⟨⟨"kube_pod_ephemeral_storage_used_bytes", "Ephemeral storage used in bytes",
      ["node", "namespace", "pod"]⟩,
    .GaugeValue, usedBytes, [node, ns, pod]⟩

/-- The gauge samples the specification asks for a summary: one per non-null
pod with ephemeral storage, in pod-list order. -/
def expectedSamples (sm : Summary) : List Metric :=
  sm.Pods.elems.filterMap (fun p =>
    match p with
    | none => none
    | some pod =>
      match pod.EphemeralStorage with
      | none => none
      | some vol =>
        some (gaugeSample sm.Node.NodeName pod.PodRef.Namespace pod.PodRef.Name vol.UsedBytes))

/-- The error-counter sample the specification describes:
`kubelet_summary_exporter_errors{type} value`. -/
def errorSample (type : String) (value : Nat) : Metric :=
  ⟨⟨"kubelet_summary_exporter_errors", "Errors scraping kubelet stats summary", ["type"]⟩,
    .CounterValue, (value : Int), [type]⟩

/-- The request `Collect` sends for a target and a token. -/
def summaryRequest (targetIP token : String) : Request :=
  ⟨"GET", summaryURL targetIP, [("Authorization", "Bearer " ++ token)]⟩

/-- The failure tags of the specification's error taxonomy. -/
def specTags : List String :=
  ["request-construction-error", "transport-error", "status-error", "body-read-error",
   "parse-error"]

/-! ## Well-typed documents and unknown fields -/

/-- A JSON value a Go `string` accepts. -/
def okString : JSON → Bool
  | .null => true
  | .str _ => true
  | _ => false

/-- A JSON value a Go `int64` accepts. -/
def okInt64 : JSON → Bool
  | .null => true
  | .int n => decide (-(2 : Int) ^ 63 ≤ n ∧ n < (2 : Int) ^ 63)
  | _ => false

/-- A JSON value a struct accepts: `null`, or an object whose members are
accepted by `okField`. -/
def okStruct (okField : String → JSON → Bool) : JSON → Bool
  | .null => true
  | .obj members => members.all (fun kv => okField kv.1 kv.2)
  | _ => false

/-- A JSON value a pointer accepts. -/
def okPtr (ok : JSON → Bool) : JSON → Bool
  | .null => true
  | j => ok j

/-- A JSON value a slice accepts. -/
def okSlice (ok : JSON → Bool) : JSON → Bool
  | .null => true
  | .arr items => items.all ok
  | _ => false

/-- A member of a volume object is well typed: a known field holds an integer
in the `int64` range (or `null`), any other member is free. -/
def okVolumeField (fold : String → String) (key : String) (j : JSON) : Bool :=
  match findField fold volumeFields key with
  | some "usedBytes" => okInt64 j
  | some "availableBytes" => okInt64 j
  | _ => true

/-- A member of a pod reference object is well typed. -/
def okPodRefField (fold : String → String) (key : String) (j : JSON) : Bool :=
  match findField fold podRefFields key with
  | some "name" => okString j
  | some "namespace" => okString j
  | _ => true

/-- A member of a pod object is well typed. -/
def okPodField (fold : String → String) (key : String) (j : JSON) : Bool :=
  match findField fold podFields key with
  | some "podRef" => okStruct (okPodRefField fold) j
  | some "ephemeral-storage" => okPtr (okStruct (okVolumeField fold)) j
  | _ => true

/-- A member of a node object is well typed. -/
def okNodeField (fold : String → String) (key : String) (j : JSON) : Bool :=
  match findField fold nodeFields key with
  | some "nodeName" => okString j
  | _ => true

/-- A member of the summary object is well typed. -/
def okSummaryField (fold : String → String) (key : String) (j : JSON) : Bool :=
  match findField fold summaryFields key with
  | some "node" => okStruct (okNodeField fold) j
  | some "pods" => okSlice (okPtr (okStruct (okPodField fold))) j
  | _ => true

/-- A document whose known fields are well typed. -/
def wellTyped (fold : String → String) (j : JSON) : Bool :=
  okStruct (okSummaryField fold) j

/-- The positions of a document the decoder looks at, by the Go type of their
target. -/
inductive Kind where
  | summary
  | node
  | pods
  | pod
  | podRef
  | volume
  | string
  | int64
deriving DecidableEq, Repr

/-- The kind of the value of a member of an object at a position: `none` when
the key selects no field there, and everywhere below a value the decoder skips
(position `none`). -/
def childKind (fold : String → String) : Option Kind → String → Option Kind
  | some .summary, key =>
    match findField fold summaryFields key with
    | some "node" => some .node
    | some "pods" => some .pods
    | _ => none
  | some .node, key =>
    match findField fold nodeFields key with
    | some "nodeName" => some .string
    | _ => none
  | some .pod, key =>
    match findField fold podFields key with
    | some "podRef" => some .podRef
    | some "ephemeral-storage" => some .volume
    | _ => none
  | some .podRef, key =>
    match findField fold podRefFields key with
    | some "name" => some .string
    | some "namespace" => some .string
    | _ => none
  | some .volume, key =>
    match findField fold volumeFields key with
    | some "usedBytes" => some .int64
    | some "availableBytes" => some .int64
    | _ => none
  | _, _ => none

/-- The kind of the items of an array at a position. -/
def itemKind : Option Kind → Option Kind
  | some .pods => some .pod
  | _ => none

/-- The document `d2` is `d1` with unknown fields added: at a position of kind
`k`, a member whose key selects no field is inserted into an object
(`addField`), or the same is done inside the value of a member (`inField`) or
inside an item of an array (`inItem`), any number of times. -/
inductive AddsUnknown (fold : String → String) : Option Kind → JSON → JSON → Prop where
  | refl (k : Option Kind) (j : JSON) : AddsUnknown fold k j j
  | trans (k : Option Kind) (j1 j2 j3 : JSON) :
      AddsUnknown fold k j1 j2 → AddsUnknown fold k j2 j3 → AddsUnknown fold k j1 j3
  | addField (k : Option Kind) (before after : List (String × JSON)) (key : String) (v : JSON) :
      childKind fold k key = none →
      AddsUnknown fold k (.obj (before ++ after)) (.obj (before ++ (key, v) :: after))
  | inField (k : Option Kind) (before after : List (String × JSON)) (key : String)
      (v1 v2 : JSON) :
      AddsUnknown fold (childKind fold k key) v1 v2 →
      AddsUnknown fold k (.obj (before ++ (key, v1) :: after)) (.obj (before ++ (key, v2) :: after))
  | inItem (k : Option Kind) (before after : List JSON) (v1 v2 : JSON) :
      AddsUnknown fold (itemKind k) v1 v2 →
      AddsUnknown fold k (.arr (before ++ v1 :: after)) (.arr (before ++ v2 :: after))

/-- Two values decode alike at a position: into every current value of the
target the decoder gives the same result, an error included. Nothing is asked
at a position the decoder skips. -/
def DecodeAlike (fold : String → String) : Option Kind → JSON → JSON → Prop
  | some .summary, j1, j2 => ∀ cur, decodeSummary fold cur j2 = decodeSummary fold cur j1
  | some .node, j1, j2 => ∀ cur, decodeNode fold cur j2 = decodeNode fold cur j1
  | some .pods, j1, j2 => ∀ cur, decodePods fold cur j2 = decodePods fold cur j1
  | some .pod, j1, j2 => ∀ cur, decodePod fold cur j2 = decodePod fold cur j1
  | some .podRef, j1, j2 => ∀ cur, decodePodRef fold cur j2 = decodePodRef fold cur j1
  | some .volume, j1, j2 => ∀ cur, decodeVolume fold cur j2 = decodeVolume fold cur j1
  | some .string, j1, j2 => ∀ cur, decodeString cur j2 = decodeString cur j1
  | some .int64, j1, j2 => ∀ cur, decodeInt64 cur j2 = decodeInt64 cur j1
  | none, _, _ => True

/-- A member selects the field `field` of a struct with the JSON names
`names`. -/
def selects (fold : String → String) (names : List String) (field : String)
    (kv : String × JSON) : Bool :=
  findField fold names kv.1 == some field

/-- The value a document gives for a field: the value of the first member of
the object that selects it. -/
def member? (fold : String → String) (names : List String) (field : String)
    (members : List (String × JSON)) : Option JSON :=
  (members.find? (selects fold names field)).map (fun kv => kv.2)

/-- At most one member of the object selects the field. -/
def once (fold : String → String) (names : List String) (field : String)
    (members : List (String × JSON)) : Bool :=
  decide ((members.filter (selects fold names field)).length ≤ 1)

/-- The string a document gives for a field: the string of the member, and the
current value when the member is missing or `null`. -/
def readString (cur : String) : Option JSON → String
  | some (.str s) => s
  | _ => cur

/-- The integer a document gives for a field. -/
def readInt64 (cur : Int) : Option JSON → Int
  | some (.int n) => n
  | _ => cur

/-- The struct a document gives for a field: built by `read` from the value of
the member, and the current value when the member is missing. -/
def readField {α : Type} (read : α → JSON → α) (cur : α) : Option JSON → α
  | some j => read cur j
  | none => cur

/-- The volume built from the fields `usedBytes` and `availableBytes` of an
object. -/
def readVolume (fold : String → String) (cur : Volume) : JSON → Volume
  | .obj ms =>
    ⟨readInt64 cur.UsedBytes (member? fold volumeFields "usedBytes" ms),
     readInt64 cur.AvailableBytes (member? fold volumeFields "availableBytes" ms)⟩
  | _ => cur

/-- The pod reference built from the fields `name` and `namespace` of an
object. -/
def readPodRef (fold : String → String) (cur : PodRef) : JSON → PodRef
  | .obj ms =>
    ⟨readString cur.Name (member? fold podRefFields "name" ms),
     readString cur.Namespace (member? fold podRefFields "namespace" ms)⟩
  | _ => cur

/-- The storage of a pod: absent when the field is `null`, the volume built
from the field otherwise, and the current value when the field is missing. -/
def readStorage (fold : String → String) (cur : Option Volume) : Option JSON → Option Volume
  | none => cur
  | some .null => none
  | some j => some (readVolume fold (cur.getD Volume.zero) j)

/-- The pod built from the fields `podRef` and `ephemeral-storage` of an
object. -/
def readPod (fold : String → String) (cur : Pod) : JSON → Pod
  | .obj ms =>
    ⟨readField (readPodRef fold) cur.PodRef (member? fold podFields "podRef" ms),
     readStorage fold cur.EphemeralStorage (member? fold podFields "ephemeral-storage" ms)⟩
  | _ => cur

/-- The pod entry built from an item of `pods`: nil for `null`. -/
def readPodEntry (fold : String → String) : JSON → Option Pod
  | .null => none
  | j => some (readPod fold Pod.zero j)

/-- The node built from the field `nodeName` of an object. -/
def readNode (fold : String → String) (cur : Node) : JSON → Node
  | .obj ms => ⟨readString cur.NodeName (member? fold nodeFields "nodeName" ms)⟩
  | _ => cur

/-- The pod list built from the field `pods`: its items in document order. -/
def readPods (fold : String → String) (cur : Slice (Option Pod)) :
    Option JSON → Slice (Option Pod)
  | none => cur
  | some (.arr items) => Slice.ofList (items.map (readPodEntry fold))
  | some _ => Slice.nil

/-- The summary the specification reads off a document: `node.nodeName` and,
for each entry of `pods` in document order, `podRef.name`, `podRef.namespace`
and, when present, the two byte counts of `ephemeral-storage`; a field that is
missing or `null` has its zero value. -/
def readSummary (fold : String → String) : JSON → Summary
  | .obj ms =>
    ⟨readField (readNode fold) Summary.zero.Node (member? fold summaryFields "node" ms),
     readPods fold Slice.nil (member? fold summaryFields "pods" ms)⟩
  | _ => Summary.zero

/-- A struct position is tidy: `null`, or an object in which no field of the
struct is named twice and every member is tidy. -/
def tidyStruct (fold : String → String) (names : List String)
    (tidyField : String → JSON → Bool) : JSON → Bool
  | .null => true
  | .obj ms =>
    names.all (fun f => once fold names f ms) && ms.all (fun kv => tidyField kv.1 kv.2)
  | _ => false

/-- A member of a pod object is tidy. -/
def tidyPodField (fold : String → String) (key : String) (j : JSON) : Bool :=
  match findField fold podFields key with
  | some "podRef" => tidyStruct fold podRefFields (okPodRefField fold) j
  | some "ephemeral-storage" => okPtr (tidyStruct fold volumeFields (okVolumeField fold)) j
  | _ => true

/-- A member of the summary object is tidy. -/
def tidySummaryField (fold : String → String) (key : String) (j : JSON) : Bool :=
  match findField fold summaryFields key with
  | some "node" => tidyStruct fold nodeFields (okNodeField fold) j
  | some "pods" => okSlice (okPtr (tidyStruct fold podFields (tidyPodField fold))) j
  | _ => true

/-- A tidy document: its known fields are well typed and no object names a
known field twice. -/
def tidy (fold : String → String) (j : JSON) : Bool :=
  tidyStruct fold summaryFields (tidySummaryField fold) j

/-- The document that carries exactly the fields of a pod entry. -/
def podDoc : Option Pod → JSON
  | none => .null
  | some pod =>
    .obj ([("podRef", .obj [("name", .str pod.PodRef.Name),
                            ("namespace", .str pod.PodRef.Namespace)])] ++
      match pod.EphemeralStorage with
      | none => []
      | some vol =>
        [("ephemeral-storage",
          .obj [("usedBytes", .int vol.UsedBytes), ("availableBytes", .int vol.AvailableBytes)])])

/-- The document that carries exactly `node.nodeName` and, for each entry of
`pods` in order, its `podRef.name`, `podRef.namespace` and, when present, its
`ephemeral-storage.usedBytes` and `ephemeral-storage.availableBytes`. -/
def summaryDoc (nodeName : String) (pods : List (Option Pod)) : JSON :=
  .obj [("node", .obj [("nodeName", .str nodeName)]), ("pods", .arr (pods.map podDoc))]

/-- The byte counts of a pod entry fit `int64`. -/
def podInRange : Option Pod → Bool
  | none => true
  | some pod =>
    match pod.EphemeralStorage with
    | none => true
    | some vol =>
      decide (-(2 : Int) ^ 63 ≤ vol.UsedBytes ∧ vol.UsedBytes < (2 : Int) ^ 63
        ∧ -(2 : Int) ^ 63 ≤ vol.AvailableBytes ∧ vol.AvailableBytes < (2 : Int) ^ 63)

/-- The example document with fields the schema does not know added at every
level: `time` and `cpu` at the top, `uid` in the pod reference, `volume` in the
pod, `capacityBytes` and `inodes` in the storage object, `memory` in the node. -/
def exampleDocExtended : JSON :=
  .obj [("time", .str "2019-11-25T20:33:19Z"),
        ("node", .obj [("nodeName", .str "ip-1"), ("memory", .obj [("rssBytes", .int 1)])]),
        ("pods", .arr [.obj [("podRef", .obj [("name", .str "p1"), ("namespace", .str "ns1"),
                                              ("uid", .str "5fbb63da")]),
                             ("volume", .arr [.obj [("name", .str "vault-client")]]),
                             ("ephemeral-storage",
                               .obj [("capacityBytes", .int 25674731520),
                                     ("usedBytes", .int 36864),
                                     ("inodes", .float "6.268245e6"),
                                     ("availableBytes", .int 92321636352)])]]),
        ("cpu", .null)]

/-! ## Overlapping invocations

`Scraper` has no lock and `errCnt` is a plain field: the statement `s.errCnt++`
of a failing invocation reads the field and then writes it, and the argument
`s.errCnt` of the sample that follows reads it again (lines 75-79, 87-91,
101-105). Goroutines interleave between these three accesses. -/

/-- How far one failing invocation has got with its three accesses to
`errCnt`: nothing yet, the value read by `s.errCnt++` (`loaded`), the
incremented value written (`stored`), the field read again and sent as the
value of the counter sample (`done`). -/
inductive Phase where
  | start
  | loaded (tmp : Nat)
  | stored
  | done (value : Nat)
deriving DecidableEq, Repr

/-- The next access of one invocation: the field afterwards and the phase
reached. -/
def Phase.step (errCnt : Nat) : Phase → Nat × Phase
  | .start => (errCnt, .loaded errCnt)
  | .loaded tmp => (tmp + 1, .stored)
  | .stored => (errCnt, .done errCnt)
  | .done value => (errCnt, .done value)

/-- Invocation number `i` of a pool makes its next access. -/
def stepAt : Nat → Nat → List Phase → Nat × List Phase
  | _, errCnt, [] => (errCnt, [])
  | 0, errCnt, p :: ps => ((p.step errCnt).1, (p.step errCnt).2 :: ps)
  | i + 1, errCnt, p :: ps => ((stepAt i errCnt ps).1, p :: (stepAt i errCnt ps).2)

/-- A schedule, the list of the invocations that move, in order, is run on the
field and the pool. -/
def runSchedule : List Nat → Nat → List Phase → Nat × List Phase
  | [], errCnt, ps => (errCnt, ps)
  | i :: rest, errCnt, ps => runSchedule rest (stepAt i errCnt ps).1 (stepAt i errCnt ps).2

/-- The schedule in which invocations `n`, `n + 1`, ..., `n + m - 1` run one
after the other, each making its three accesses without interruption. -/
def oneByOne : Nat → Nat → List Nat
  | _, 0 => []
  | n, m + 1 => n :: n :: n :: oneByOne (n + 1) m

/-- The phases of `m` invocations that ran one after the other from the tally
`t`: the values `t + 1`, ..., `t + m` sent. -/
def doneFrom : Nat → Nat → List Phase
  | _, 0 => []
  | t, m + 1 => .done (t + 1) :: doneFrom (t + 1) m

/-- The number of invocations of a pool that have written the field. -/
def past : List Phase → Nat
  | [] => 0
  | .stored :: ps => past ps + 1
  | .done _ :: ps => past ps + 1
  | _ :: ps => past ps

/-- Every invocation of the pool has sent its sample. -/
def finished (ps : List Phase) : Bool :=
  ps.all (fun p => match p with
    | .done _ => true
    | _ => false)

/-- What holds of the field `c` and the pool, from the tally `t`, whatever the
schedule: the field is between `t` and `t` plus the number of writes, it is
above `t` once there was a write, and so is every value read and not yet
written back. -/
def PoolInv (t c : Nat) (ps : List Phase) : Prop :=
  t ≤ c ∧ c ≤ t + past ps ∧ (0 < past ps → t + 1 ≤ c)
    ∧ ∀ v, Phase.loaded v ∈ ps → t ≤ v ∧ v ≤ t + past ps

/-- The counter values `t + 1`, ..., `t + m`. -/
def talliesFrom : Nat → Nat → List Int
  | _, 0 => []
  | t, m + 1 => ((t + 1 : Nat) : Int) :: talliesFrom (t + 1) m

/-- The fetch of a collector with this target, token path and timeout fails in
this world in one of the three ways `Collect` counts: the request is built and
the token read, and the request fails in transport, or the status is not 200,
or reading the body fails. -/
def CountedFailure (env : Env) (ip tp : String) (tmo : Int) : Prop :=
  ∃ tok, env.validURL (summaryURL ip) = true ∧ env.ReadFile tp = some tok
    ∧ (env.Do tmo (summaryRequest ip tok) = none
      ∨ ∃ resp, env.Do tmo (summaryRequest ip tok) = some resp
          ∧ (resp.StatusCode ≠ 200 ∨ resp.Body = none))

/-! ## Test environments -/

/-- A world in which the kubelet answers every request with `resp`. -/
def envAnswering (resp : Response) : Env :=
  ⟨fun _ => true, fun _ => some "tok", fun _ _ => some resp⟩

/-- A world in which the kubelet answers with a summary of four pod entries: a
pod with storage, a null entry, a pod without storage, and a pod with storage
whose namespace and name are empty. -/
def envFourPods : Env :=
  envAnswering ⟨200, some (some (.obj
    [("node", .obj [("nodeName", .str "ip-1")]),
     ("pods", .arr
       [.obj [("podRef", .obj [("name", .str "p1"), ("namespace", .str "ns1")]),
              ("ephemeral-storage", .obj [("usedBytes", .int 36864)])],
        .null,
        .obj [("podRef", .obj [("name", .str "p2"), ("namespace", .str "ns1")])],
        .obj [("podRef", .obj [("name", .str ""), ("namespace", .str "")]),
              ("ephemeral-storage", .obj [("usedBytes", .int 7)])]])]))⟩

/-- A world in which `http.NewRequest` rejects every URL. -/
def envBadURL : Env :=
  ⟨fun _ => false, fun _ => some "tok", fun _ _ => some ⟨200, some (some exampleDoc)⟩⟩

/-- A world in which the token file cannot be read. -/
def envNoToken : Env :=
  ⟨fun _ => true, fun _ => none, fun _ _ => some ⟨200, some (some exampleDoc)⟩⟩

/-- A world in which `http.NewRequest` rejects every URL and the token file
cannot be read either. -/
def envBadURLNoToken : Env :=
  ⟨fun _ => false, fun _ => none, fun _ _ => some ⟨200, some (some exampleDoc)⟩⟩

/-- A world in which the request fails in transport. -/
def envDown : Env :=
  ⟨fun _ => true, fun _ => some "tok", fun _ _ => none⟩

/-- All the samples sent during a run of invocations, in order. -/
def allEmitted : List Outcome → List Metric
  | [] => []
  | o :: os => o.emitted ++ allEmitted os

/-! # Proofs -/

/-! ## Descriptors -/

theorem storage_desc (ip tp : String) (tmo : Int) :
    (NewScraper ip tp tmo).storage =
      ⟨"kube_pod_ephemeral_storage_used_bytes", "Ephemeral storage used in bytes",
        ["node", "namespace", "pod"]⟩ := by
  rfl

theorem errors_desc (ip tp : String) (tmo : Int) :
    (NewScraper ip tp tmo).errors =
      ⟨"kubelet_summary_exporter_errors", "Errors scraping kubelet stats summary", ["type"]⟩ := by
  rfl

/-! ## The pod loop -/

/-- The samples the pod loop is expected to send for a node name and a list of
pod entries. -/
theorem collectPods_built (ip tp : String) (tmo : Int) (node : String) (pods : List (Option Pod)) :
    collectPods (NewScraper ip tp tmo).storage node pods =
      (pods.filterMap (fun p =>
        match p with
        | none => none
        | some pod =>
          match pod.EphemeralStorage with
          | none => none
          | some vol =>
            some (gaugeSample node pod.PodRef.Namespace pod.PodRef.Name vol.UsedBytes)), false) := by
  induction pods with
  | nil => rfl
  | cons p ps ih =>
    cases p with
    | none => simpa [collectPods] using ih
    | some pod =>
      cases hv : pod.EphemeralStorage with
      | none => simpa [collectPods, hv] using ih
      | some vol =>
        simp only [collectPods, hv, storage_desc, MustNewConstMetric, List.length_cons,
          List.length_nil, if_true, List.filterMap_cons]
        rw [storage_desc] at ih
        rw [ih]
        rfl

theorem expectedSamples_gauge (sm : Summary) :
    ∀ m ∈ expectedSamples sm,
      m.valueType = .GaugeValue ∧ m.desc.fqName = "kube_pod_ephemeral_storage_used_bytes" := by
  intro m hm
  simp only [expectedSamples, List.mem_filterMap] at hm
  obtain ⟨p, _, hp⟩ := hm
  cases p with
  | none => simp at hp
  | some pod =>
    cases hv : pod.EphemeralStorage with
    | none => simp [hv] at hp
    | some vol =>
      simp only [hv, Option.some.injEq] at hp
      subst hp
      exact ⟨rfl, rfl⟩

/-! ## Collect, branch by branch -/

/-- When the request is built, the token is read and the kubelet answers 200
with a body that decodes, `Collect` on a built collector is the pod loop. -/
theorem Collect_ok (fold : String → String) (env : Env) (ip tp : String) (tmo : Int) (t : Nat)
    (tok : String) (resp : Response) (body : Option JSON) (sm : Summary)
    (hurl : env.validURL (summaryURL ip) = true)
    (htok : env.ReadFile tp = some tok)
    (hdo : env.Do tmo (summaryRequest ip tok) = some resp)
    (hstatus : resp.StatusCode = 200)
    (hbody : resp.Body = some body)
    (hparse : parse fold body = .ok sm) :
    Collect fold env ((NewScraper ip tp tmo).atTally t) =
      ⟨(NewScraper ip tp tmo).atTally t, expectedSamples sm, [summaryRequest ip tok], [],
        .returned⟩ := by
  have hreq : (⟨"GET", summaryURL ip, []⟩ : Request).addHeader "Authorization" ("Bearer " ++ tok)
      = summaryRequest ip tok := rfl
  have hpods := collectPods_built ip tp tmo sm.Node.NodeName sm.Pods.elems
  simp only [Collect, NewRequest, Scraper.atTally, NewScraper, hurl, htok, if_true, hreq, hdo,
    hstatus, StatusOK, hbody, hparse] at hpods ⊢
  simp only [ne_eq, not_true_eq_false, if_false]
  rw [hpods]
  rfl

/-- **C1.** Success path of `Collect`: for every tally `t` and every payload
fetched with status 200 and decoded into a summary `sm`, the samples sent are
exactly, in pod-list order, one gauge sample
`kube_pod_ephemeral_storage_used_bytes` per non-null pod with ephemeral
storage, labelled (node name, pod namespace, pod name) with value `usedBytes`;
every sample is a gauge (no error-counter sample), the collector and its tally
are unchanged and `Collect` returns. Pods that all carry ephemeral storage give
one sample each and no pods give no sample. -/
theorem collect_success_emits_pod_gauges (fold : String → String) (env : Env) (ip tp : String)
    (tmo : Int) (t : Nat) (tok : String) (resp : Response) (body : Option JSON) (sm : Summary)
    (hurl : env.validURL (summaryURL ip) = true)
    (htok : env.ReadFile tp = some tok)
    (hdo : env.Do tmo (summaryRequest ip tok) = some resp)
    (hstatus : resp.StatusCode = 200)
    (hbody : resp.Body = some body)
    (hparse : parse fold body = .ok sm) :
    (Collect fold env ((NewScraper ip tp tmo).atTally t)).emitted = expectedSamples sm
    ∧ (∀ m ∈ (Collect fold env ((NewScraper ip tp tmo).atTally t)).emitted,
        m.valueType = .GaugeValue ∧ m.desc.fqName = "kube_pod_ephemeral_storage_used_bytes")
    ∧ (Collect fold env ((NewScraper ip tp tmo).atTally t)).scraper
        = (NewScraper ip tp tmo).atTally t
    ∧ (Collect fold env ((NewScraper ip tp tmo).atTally t)).scraper.errCnt = t
    ∧ (Collect fold env ((NewScraper ip tp tmo).atTally t)).ending = .returned
    ∧ ((∀ p ∈ sm.Pods.elems, ∃ pod vol, p = some pod ∧ pod.EphemeralStorage = some vol) →
        (Collect fold env ((NewScraper ip tp tmo).atTally t)).emitted.length
          = sm.Pods.elems.length)
    ∧ (sm.Pods.elems = [] → (Collect fold env ((NewScraper ip tp tmo).atTally t)).emitted = []) := by
  rw [Collect_ok fold env ip tp tmo t tok resp body sm hurl htok hdo hstatus hbody hparse]
  refine ⟨rfl, ?_, rfl, rfl, rfl, ?_, ?_⟩
  · exact expectedSamples_gauge sm
  · intro hall
    simp only [expectedSamples]
    generalize sm.Pods.elems = pods at hall
    induction pods with
    | nil => rfl
    | cons p ps ih =>
      obtain ⟨pod, vol, hp, hv⟩ := hall p (List.mem_cons_self _ _)
      subst hp
      have ih2 := ih (fun q hq => hall q (List.mem_cons_of_mem _ hq))
      simp only [List.filterMap_cons, hv, List.length_cons, ih2]
  · intro hnil
    simp [expectedSamples, hnil]

theorem collect_success_emits_pod_gauges_witness :
    (Collect asciiFold envFourPods ((NewScraper "n" "/t" 5).atTally 3)).emitted
      = [gaugeSample "ip-1" "ns1" "p1" 36864, gaugeSample "ip-1" "" "" 7]
    ∧ (Collect asciiFold envFourPods ((NewScraper "n" "/t" 5).atTally 3)).scraper.errCnt = 3 :=
  have h := collect_success_emits_pod_gauges asciiFold envFourPods "n" "/t" 5 3 "tok"
    ⟨200, _⟩ _ _ rfl rfl rfl rfl rfl rfl
  ⟨h.1.trans rfl, h.2.2.2.1⟩

/-! ## What one invocation does to the tally -/

theorem collectPods_counterValues (storage : Desc) (node : String) (pods : List (Option Pod)) :
    counterValues (collectPods storage node pods).1 = [] := by
  induction pods with
  | nil => rfl
  | cons p ps ih =>
    cases p with
    | none => simpa [collectPods] using ih
    | some pod =>
      cases hv : pod.EphemeralStorage with
      | none => simpa [collectPods, hv] using ih
      | some vol =>
        simp only [collectPods, hv]
        cases hm : MustNewConstMetric storage .GaugeValue vol.UsedBytes
            [node, pod.PodRef.Namespace, pod.PodRef.Name] with
        | none => rfl
        | some m =>
          have hty : m.valueType = .GaugeValue := by
            unfold MustNewConstMetric at hm
            split at hm
            · cases hm; rfl
            · cases hm
          simp only [counterValues, List.filter_cons, hty] at ih ⊢
          simpa using ih

theorem countedFailure_tally (s : Scraper) (sent : List Request) (type : String)
    (line : Level × String) :
    ((countedFailure s sent type line).scraper = s
      ∨ (countedFailure s sent type line).scraper = s.atTally (s.errCnt + 1))
    ∧ (counterValues (countedFailure s sent type line).emitted = []
       ∨ counterValues (countedFailure s sent type line).emitted
          = [((countedFailure s sent type line).scraper.errCnt : Int)]) := by
  unfold countedFailure
  simp only
  cases hm : MustNewConstMetric s.errors .CounterValue ((s.errCnt + 1 : Nat) : Int) [type] with
  | none => exact ⟨Or.inr rfl, Or.inl rfl⟩
  | some m =>
    refine ⟨Or.inr rfl, Or.inr ?_⟩
    unfold MustNewConstMetric at hm
    split at hm
    · cases hm; rfl
    · cases hm

/-- One `Collect` leaves every field but `errCnt` alone, moves `errCnt` by zero
or one, and sends at most one counter sample, whose value is the new count. -/
theorem Collect_tally (fold : String → String) (env : Env) (s : Scraper) :
    ((Collect fold env s).scraper = s ∨ (Collect fold env s).scraper = s.atTally (s.errCnt + 1))
    ∧ (counterValues (Collect fold env s).emitted = []
       ∨ counterValues (Collect fold env s).emitted
          = [((Collect fold env s).scraper.errCnt : Int)]) := by
  unfold Collect
  split
  · exact ⟨Or.inl rfl, Or.inl rfl⟩
  · split
    · exact ⟨Or.inl rfl, Or.inl rfl⟩
    · simp only
      split
      · exact countedFailure_tally s _ _ _
      · split
        · exact countedFailure_tally s _ _ _
        · split
          · exact countedFailure_tally s _ _ _
          · split
            · split
              · exact ⟨Or.inl rfl, Or.inl rfl⟩
              · rename_i m hm
                refine ⟨Or.inl rfl, Or.inr ?_⟩
                unfold MustNewConstMetric at hm
                split at hm
                · cases hm; rfl
                · cases hm
            · rename_i summary _
              have hc := collectPods_counterValues s.storage summary.Node.NodeName
                summary.Pods.elems
              split
              · rename_i ms hms
                rw [hms] at hc
                exact ⟨Or.inl rfl, Or.inl hc⟩
              · rename_i ms hms
                rw [hms] at hc
                exact ⟨Or.inl rfl, Or.inl hc⟩

theorem invoke_tally (fold : String → String) (s : Scraper) (c : Call) :
    ((invoke fold s c).scraper = s ∨ (invoke fold s c).scraper = s.atTally (s.errCnt + 1))
    ∧ (counterValues (invoke fold s c).emitted = []
       ∨ counterValues (invoke fold s c).emitted = [((invoke fold s c).scraper.errCnt : Int)]) := by
  cases c with
  | describe => exact ⟨Or.inl rfl, Or.inl rfl⟩
  | collect env => exact Collect_tally fold env s

theorem invoke_errCnt (fold : String → String) (s : Scraper) (c : Call) :
    (invoke fold s c).scraper.errCnt = s.errCnt
    ∨ (invoke fold s c).scraper.errCnt = s.errCnt + 1 := by
  rcases (invoke_tally fold s c).1 with h | h
  · exact Or.inl (by rw [h])
  · exact Or.inr (by rw [h]; rfl)

theorem counterValues_append (xs ys : List Metric) :
    counterValues (xs ++ ys) = counterValues xs ++ counterValues ys := by
  simp [counterValues]

theorem runCalls_tally_chain (fold : String → String) (cs : List Call) :
    ∀ s : Scraper,
      List.Chain (fun a b => a ≤ b) s.errCnt
        ((runCalls fold s cs).map (fun o => o.scraper.errCnt)) := by
  induction cs with
  | nil => intro s; exact List.Chain.nil
  | cons c cs ih =>
    intro s
    have hstep : s.errCnt ≤ (invoke fold s c).scraper.errCnt := by
      rcases invoke_errCnt fold s c with h | h <;> omega
    unfold runCalls
    split
    · exact List.Chain.cons hstep (ih _)
    · exact List.Chain.cons hstep List.Chain.nil

theorem runCalls_counter_values (fold : String → String) (cs : List Call) :
    ∀ s : Scraper,
      List.Pairwise (fun a b => a ≤ b) (counterValues (allEmitted (runCalls fold s cs)))
      ∧ ∀ v ∈ counterValues (allEmitted (runCalls fold s cs)), (s.errCnt : Int) ≤ v := by
  induction cs with
  | nil =>
    intro s
    exact ⟨List.Pairwise.nil, fun v hv => by simp [runCalls, allEmitted, counterValues] at hv⟩
  | cons c cs ih =>
    intro s
    have hstep : (s.errCnt : Int) ≤ ((invoke fold s c).scraper.errCnt : Int) := by
      rcases invoke_errCnt fold s c with h | h <;> omega
    have hone := (invoke_tally fold s c).2
    unfold runCalls
    split
    · obtain ⟨ihp, ihb⟩ := ih (invoke fold s c).scraper
      simp only [allEmitted, counterValues_append]
      rcases hone with h | h
      · rw [h]
        exact ⟨by simpa using ihp, fun v hv => le_trans hstep (ihb v (by simpa using hv))⟩
      · rw [h]
        refine ⟨?_, ?_⟩
        · simp only [List.singleton_append, List.pairwise_cons]
          exact ⟨ihb, ihp⟩
        · intro v hv
          simp only [List.singleton_append, List.mem_cons] at hv
          rcases hv with hv | hv
          · rw [hv]; exact hstep
          · exact le_trans hstep (ihb v hv)
    · simp only [allEmitted, List.append_nil]
      rcases hone with h | h
      · rw [h]
        exact ⟨List.Pairwise.nil, fun v hv => by simp at hv⟩
      · rw [h]
        refine ⟨List.pairwise_singleton _ _, ?_⟩
        intro v hv
        simp only [List.mem_singleton] at hv
        rw [hv]; exact hstep

/-- Every state a run of invocations passes through is the built collector at
some tally. -/
theorem runCalls_built (fold : String → String) (ip tp : String) (tmo : Int) (cs : List Call) :
    ∀ t : Nat, ∀ o ∈ runCalls fold ((NewScraper ip tp tmo).atTally t) cs,
      ∃ t2 : Nat, o.scraper = (NewScraper ip tp tmo).atTally t2 := by
  induction cs with
  | nil => intro t o ho; simp [runCalls] at ho
  | cons c cs ih =>
    intro t o ho
    have hfirst : ∃ t2 : Nat,
        (invoke fold ((NewScraper ip tp tmo).atTally t) c).scraper
          = (NewScraper ip tp tmo).atTally t2 := by
      rcases (invoke_tally fold ((NewScraper ip tp tmo).atTally t) c).1 with h | h
      · exact ⟨t, h⟩
      · exact ⟨t + 1, h⟩
    unfold runCalls at ho
    split at ho
    · simp only [List.mem_cons] at ho
      rcases ho with ho | ho
      · rw [ho]; exact hfirst
      · obtain ⟨t2, ht2⟩ := hfirst
        rw [ht2] at ho
        exact ih t2 o ho
    · simp only [List.mem_singleton] at ho
      rw [ho]; exact hfirst

/-! ## Failures of the fetch -/

theorem Collect_counted (fold : String → String) (env : Env) (ip tp : String)
    (tmo : Int) (t : Nat) (tok : String)
    (hurl : env.validURL (summaryURL ip) = true)
    (htok : env.ReadFile tp = some tok)
    (hfail : env.Do tmo (summaryRequest ip tok) = none
      ∨ ∃ resp, env.Do tmo (summaryRequest ip tok) = some resp
          ∧ (resp.StatusCode ≠ 200 ∨ resp.Body = none)) :
    ∃ type line, Collect fold env ((NewScraper ip tp tmo).atTally t)
      = ⟨(NewScraper ip tp tmo).atTally (t + 1), [errorSample type (t + 1)],
          [summaryRequest ip tok], [line], .returned⟩ := by
  have hreq : (⟨"GET", summaryURL ip, []⟩ : Request).addHeader "Authorization" ("Bearer " ++ tok)
      = summaryRequest ip tok := rfl
  rcases hfail with hdo | ⟨resp, hdo, hst | hb⟩
  · refine ⟨"request error", (.Warn, "failed to make request to stats/summary"), ?_⟩
    simp only [Collect, NewRequest, Scraper.atTally, NewScraper, hurl, htok, if_true, hreq, hdo]
    rfl
  · refine ⟨"status error", (.Warn, "got unexpected status for stats/summary"), ?_⟩
    simp only [Collect, NewRequest, Scraper.atTally, NewScraper, hurl, htok, if_true, hreq, hdo,
      StatusOK, ne_eq, hst, not_false_eq_true]
    rfl
  · by_cases hst : resp.StatusCode = 200
    · refine ⟨"read body error", (.Error, "failed to read body"), ?_⟩
      simp only [Collect, NewRequest, Scraper.atTally, NewScraper, hurl, htok, if_true, hreq,
        hdo, StatusOK, ne_eq, hst, not_true_eq_false, if_false, hb]
      rfl
    · refine ⟨"status error", (.Warn, "got unexpected status for stats/summary"), ?_⟩
      simp only [Collect, NewRequest, Scraper.atTally, NewScraper, hurl, htok, if_true, hreq,
        hdo, StatusOK, ne_eq, hst, not_false_eq_true]
      rfl

/-- **C2.** Fetch failure: for every tally `t`, when the request is built and
the token read, and the request fails in transport, or the response status is
not 200, or reading the body fails, `Collect` raises the tally to exactly
`t + 1`, sends exactly one sample, a `kubelet_summary_exporter_errors` counter
sample whose value is the new tally `t + 1`, sends no gauge sample, and
returns. -/
theorem collect_fetch_failure_counts_once (fold : String → String) (env : Env) (ip tp : String)
    (tmo : Int) (t : Nat) (tok : String)
    (hurl : env.validURL (summaryURL ip) = true)
    (htok : env.ReadFile tp = some tok)
    (hfail : env.Do tmo (summaryRequest ip tok) = none
      ∨ ∃ resp, env.Do tmo (summaryRequest ip tok) = some resp
          ∧ (resp.StatusCode ≠ 200 ∨ resp.Body = none)) :
    (Collect fold env ((NewScraper ip tp tmo).atTally t)).scraper
        = (NewScraper ip tp tmo).atTally (t + 1)
    ∧ (Collect fold env ((NewScraper ip tp tmo).atTally t)).scraper.errCnt = t + 1
    ∧ (∃ type, (Collect fold env ((NewScraper ip tp tmo).atTally t)).emitted
        = [errorSample type (t + 1)])
    ∧ (∀ m ∈ (Collect fold env ((NewScraper ip tp tmo).atTally t)).emitted,
        m.valueType ≠ .GaugeValue)
    ∧ (Collect fold env ((NewScraper ip tp tmo).atTally t)).ending = .returned := by
  obtain ⟨type, line, h⟩ := Collect_counted fold env ip tp tmo t tok hurl htok hfail
  rw [h]
  refine ⟨rfl, rfl, ⟨type, rfl⟩, ?_, rfl⟩
  intro m hm
  simp only [List.mem_singleton] at hm
  rw [hm]
  simp [errorSample]

theorem collect_fetch_failure_counts_once_witness :
    (Collect asciiFold envDown ((NewScraper "n" "/t" 5).atTally 3)).scraper.errCnt = 4
    ∧ (Collect asciiFold envDown ((NewScraper "n" "/t" 5).atTally 3)).emitted
        = [errorSample "request error" 4] :=
  have h := collect_fetch_failure_counts_once asciiFold envDown "n" "/t" 5 3 "tok" rfl rfl
    (Or.inl rfl)
  ⟨h.2.1, rfl⟩

/-- **C3 (what the code does).** Decode failure: for every tally `t`, when the
kubelet answers 200 with a body that is not a JSON text, or with the document
`{"pods": 5}` whose `pods` field is wrongly typed, `Collect` sends one
error-counter sample labelled `parse body error` whose value is the old tally
`t`, and the tally is still `t` afterwards: this branch does not count. -/
theorem collect_parse_failure_keeps_tally (fold : String → String) (t : Nat) :
    (Collect fold (envAnswering ⟨200, some none⟩) ((NewScraper "n" "/t" 5).atTally t)).emitted
        = [errorSample "parse body error" t]
    ∧ (Collect fold (envAnswering ⟨200, some none⟩)
        ((NewScraper "n" "/t" 5).atTally t)).scraper.errCnt = t
    ∧ (Collect fold (envAnswering ⟨200, some (some (.obj [("pods", .int 5)]))⟩)
        ((NewScraper "n" "/t" 5).atTally t)).emitted = [errorSample "parse body error" t]
    ∧ (Collect fold (envAnswering ⟨200, some (some (.obj [("pods", .int 5)]))⟩)
        ((NewScraper "n" "/t" 5).atTally t)).scraper.errCnt = t := by
  exact ⟨rfl, rfl, rfl, rfl⟩

/-- **C4 (as stated, refuted).** A response with status 503 makes `Collect`
send an error-counter sample whose `type` label is `status error`, which is
none of the five tags of the specification's taxonomy. -/
theorem status_503_label_is_no_spec_tag :
    ∃ m ∈ (Collect asciiFold (envAnswering ⟨503, some none⟩) (NewScraper "n" "/t" 5)).emitted,
      m.valueType = .CounterValue ∧ m.labelValues = ["status error"]
      ∧ ¬ ∃ tag ∈ specTags, m.labelValues = [tag] := by
  refine ⟨errorSample "status error" 1, ?_, rfl, rfl, ?_⟩
  · exact List.mem_singleton.mpr rfl
  · simp [errorSample, specTags]

/-- **C4 (amended).** Every error-counter sample `Collect` sends carries one
`type` label, and that label names the failure that occurred: `request error`
for a transport failure, `status error` for a status other than 200,
`read body error` for a body read failure, `parse body error` for a decode
failure. (A failure to build the request or to read the token sends no
sample, so the request was built and the token read.) -/
theorem collect_error_label (fold : String → String) (env : Env) (ip tp : String) (tmo : Int)
    (t : Nat) (m : Metric)
    (hm : m ∈ (Collect fold env ((NewScraper ip tp tmo).atTally t)).emitted)
    (hc : m.valueType = .CounterValue) :
    ∃ tok, env.validURL (summaryURL ip) = true ∧ env.ReadFile tp = some tok
      ∧ ((env.Do tmo (summaryRequest ip tok) = none ∧ m.labelValues = ["request error"])
        ∨ (∃ resp, env.Do tmo (summaryRequest ip tok) = some resp ∧ resp.StatusCode ≠ 200
            ∧ m.labelValues = ["status error"])
        ∨ (∃ resp, env.Do tmo (summaryRequest ip tok) = some resp ∧ resp.StatusCode = 200
            ∧ resp.Body = none ∧ m.labelValues = ["read body error"])
        ∨ (∃ resp body e, env.Do tmo (summaryRequest ip tok) = some resp
            ∧ resp.StatusCode = 200 ∧ resp.Body = some body ∧ parse fold body = .error e
            ∧ m.labelValues = ["parse body error"])) := by
  cases hurl : env.validURL (summaryURL ip) with
  | false =>
    simp [Collect, NewRequest, Scraper.atTally, NewScraper, hurl] at hm
  | true =>
    cases htok : env.ReadFile tp with
    | none => simp [Collect, NewRequest, Scraper.atTally, NewScraper, hurl, htok] at hm
    | some tok =>
      refine ⟨tok, rfl, rfl, ?_⟩
      have hreq : (⟨"GET", summaryURL ip, []⟩ : Request).addHeader "Authorization"
          ("Bearer " ++ tok) = summaryRequest ip tok := rfl
      cases hdo : env.Do tmo (summaryRequest ip tok) with
      | none =>
        left
        refine ⟨rfl, ?_⟩
        simp only [Collect, NewRequest, Scraper.atTally, NewScraper, hurl, htok, if_true, hreq,
          hdo, countedFailure, MustNewConstMetric, List.length_cons, List.length_nil,
          List.mem_singleton] at hm
        rw [hm]
      | some resp =>
        right
        by_cases hst : resp.StatusCode = 200
        · right
          cases hb : resp.Body with
          | none =>
            left
            refine ⟨resp, rfl, hst, hb, ?_⟩
            simp only [Collect, NewRequest, Scraper.atTally, NewScraper, hurl, htok, if_true, hreq,
              hdo, StatusOK, ne_eq, hst, not_true_eq_false, if_false, hb, countedFailure,
              MustNewConstMetric, List.length_cons, List.length_nil, List.mem_singleton] at hm
            rw [hm]
          | some body =>
            right
            cases hp : parse fold body with
            | error e =>
              refine ⟨resp, body, e, rfl, hst, hb, hp, ?_⟩
              simp only [Collect, NewRequest, Scraper.atTally, NewScraper, hurl, htok, if_true,
                hreq, hdo, StatusOK, ne_eq, hst, not_true_eq_false, if_false, hb, hp,
                MustNewConstMetric, List.length_cons, List.length_nil, List.mem_singleton] at hm
              rw [hm]
            | ok sm =>
              exfalso
              rw [Collect_ok fold env ip tp tmo t tok resp body sm hurl htok hdo hst hb hp] at hm
              have hg := (expectedSamples_gauge sm m hm).1
              rw [hg] at hc
              cases hc
        · left
          refine ⟨resp, rfl, hst, ?_⟩
          simp only [Collect, NewRequest, Scraper.atTally, NewScraper, hurl, htok, if_true, hreq,
            hdo, StatusOK, ne_eq, hst, not_false_eq_true, countedFailure,
            MustNewConstMetric, List.length_cons, List.length_nil, List.mem_singleton] at hm
          rw [hm]

theorem collect_error_label_witness :
    errorSample "status error" 1
        ∈ (Collect asciiFold (envAnswering ⟨503, some none⟩) ((NewScraper "n" "/t" 5).atTally 0)).emitted
    ∧ ∃ tok, (envAnswering ⟨503, some none⟩).validURL (summaryURL "n") = true
      ∧ (envAnswering ⟨503, some none⟩).ReadFile "/t" = some tok
      ∧ (((envAnswering ⟨503, some none⟩).Do 5 (summaryRequest "n" tok) = none
            ∧ (errorSample "status error" 1).labelValues = ["request error"])
        ∨ (∃ resp, (envAnswering ⟨503, some none⟩).Do 5 (summaryRequest "n" tok) = some resp
            ∧ resp.StatusCode ≠ 200
            ∧ (errorSample "status error" 1).labelValues = ["status error"])
        ∨ (∃ resp, (envAnswering ⟨503, some none⟩).Do 5 (summaryRequest "n" tok) = some resp
            ∧ resp.StatusCode = 200 ∧ resp.Body = none
            ∧ (errorSample "status error" 1).labelValues = ["read body error"])
        ∨ (∃ resp body e, (envAnswering ⟨503, some none⟩).Do 5 (summaryRequest "n" tok) = some resp
            ∧ resp.StatusCode = 200 ∧ resp.Body = some body ∧ parse asciiFold body = .error e
            ∧ (errorSample "status error" 1).labelValues = ["parse body error"])) :=
  ⟨List.mem_singleton.mpr rfl,
   collect_error_label asciiFold (envAnswering ⟨503, some none⟩) "n" "/t" 5 0
     (errorSample "status error" 1) (List.mem_singleton.mpr rfl) rfl⟩

/-! ## Failures before the request is sent -/

/-- **C5 (as stated, refuted).** With an unreadable token file `Collect` does
not return to its caller and sends no error-counter sample: the invocation
ends in `logger.Fatal`, which exits the process. -/
theorem unreadable_token_exits :
    (Collect asciiFold envNoToken (NewScraper "n" "/t" 5)).ending = .exited
    ∧ (Collect asciiFold envNoToken (NewScraper "n" "/t" 5)).ending ≠ .returned
    ∧ (Collect asciiFold envNoToken (NewScraper "n" "/t" 5)).emitted = [] := by
  refine ⟨rfl, ?_, rfl⟩
  intro h
  cases h

/-- **C5 (amended).** For every collector state and every state of the world
in which the bearer-token file is missing or unreadable, `Collect` sends no
request (it never fetches without a token), sends no sample and leaves the
collector and its tally unchanged. When the request was built (`http.NewRequest`
accepts the URL), `Collect` writes the fatal log line
`unable to load specified token` and ends the process through `logger.Fatal`
instead of returning. When building the request failed, `Collect` has logged
`failed to create request` and returned before the token file is read. -/
theorem collect_unreadable_token_is_fatal (fold : String → String) (env : Env) (s : Scraper)
    (htok : env.ReadFile s.tokenPath = none) :
    (Collect fold env s).sent = []
    ∧ (Collect fold env s).emitted = []
    ∧ (Collect fold env s).scraper = s
    ∧ (env.validURL (summaryURL s.targetIP) = true →
        (Collect fold env s).logs = [(.Fatal, "unable to load specified token")]
        ∧ (Collect fold env s).ending = .exited)
    ∧ (env.validURL (summaryURL s.targetIP) = false →
        (Collect fold env s).logs = [(.Error, "failed to create request")]
        ∧ (Collect fold env s).ending = .returned) := by
  cases hurl : env.validURL (summaryURL s.targetIP) with
  | true => simp [Collect, NewRequest, hurl, htok]
  | false => simp [Collect, NewRequest, hurl]

theorem collect_unreadable_token_is_fatal_witness :
    ((Collect asciiFold envNoToken ((NewScraper "n" "/t" 5).atTally 3)).sent = []
      ∧ (Collect asciiFold envNoToken ((NewScraper "n" "/t" 5).atTally 3)).emitted = []
      ∧ (Collect asciiFold envNoToken ((NewScraper "n" "/t" 5).atTally 3)).ending = .exited)
    ∧ ((Collect asciiFold envBadURLNoToken (NewScraper "bad host" "/t" 5)).sent = []
      ∧ (Collect asciiFold envBadURLNoToken (NewScraper "bad host" "/t" 5)).logs
          = [(.Error, "failed to create request")]
      ∧ (Collect asciiFold envBadURLNoToken (NewScraper "bad host" "/t" 5)).ending = .returned) :=
  have h1 := collect_unreadable_token_is_fatal asciiFold envNoToken
    ((NewScraper "n" "/t" 5).atTally 3) rfl
  have h2 := collect_unreadable_token_is_fatal asciiFold envBadURLNoToken
    (NewScraper "bad host" "/t" 5) rfl
  ⟨⟨h1.1, h1.2.1, (h1.2.2.2.1 rfl).2⟩, ⟨h2.1, (h2.2.2.2.2 rfl).1, (h2.2.2.2.2 rfl).2⟩⟩

/-- **C6 (as stated, refuted).** When `http.NewRequest` rejects the URL,
`Collect` on a fresh collector leaves the tally at 0 and sends nothing: no
error-counter sample is emitted and the tally is not `0 + 1`. -/
theorem request_construction_failure_is_silent :
    (Collect asciiFold envBadURL (NewScraper "bad host" "/t" 5)).scraper.errCnt = 0
    ∧ (Collect asciiFold envBadURL (NewScraper "bad host" "/t" 5)).scraper.errCnt ≠ 0 + 1
    ∧ (Collect asciiFold envBadURL (NewScraper "bad host" "/t" 5)).emitted = [] := by
  refine ⟨rfl, ?_, rfl⟩
  decide

/-- **C6 (amended).** For every collector state, when building the GET request
for `https://<targetIP>:10250/stats/summary` fails, `Collect` writes the error
log line `failed to create request` and returns with nothing sent: no sample,
no request, and the collector and its tally unchanged. -/
theorem collect_request_construction_failure (fold : String → String) (env : Env) (s : Scraper)
    (hurl : env.validURL (summaryURL s.targetIP) = false) :
    (Collect fold env s).emitted = []
    ∧ (Collect fold env s).sent = []
    ∧ (Collect fold env s).scraper = s
    ∧ (Collect fold env s).scraper.errCnt = s.errCnt
    ∧ (Collect fold env s).logs = [(.Error, "failed to create request")]
    ∧ (Collect fold env s).ending = .returned := by
  simp [Collect, NewRequest, hurl]

theorem collect_request_construction_failure_witness :
    (Collect asciiFold envBadURL ((NewScraper "bad host" "/t" 5).atTally 3)).emitted = []
    ∧ (Collect asciiFold envBadURL ((NewScraper "bad host" "/t" 5).atTally 3)).scraper.errCnt = 3 :=
  have h := collect_request_construction_failure asciiFold envBadURL
    ((NewScraper "bad host" "/t" 5).atTally 3) rfl
  ⟨h.1, h.2.2.2.1⟩

/-! ## Describe and the life of the tally -/

/-- **C8.** `Describe`: for every collector built by `NewScraper`, at every
tally, `Describe` sends exactly two descriptors, first the gauge descriptor
`kube_pod_ephemeral_storage_used_bytes` with labels node, namespace, pod, then
the counter descriptor `kubelet_summary_exporter_errors` with label type, and
leaves the collector (its tally included) unchanged; the same holds in every
state reached by any run of `Describe` and `Collect` invocations. -/
theorem describe_two_static_descriptors (fold : String → String) (ip tp : String) (tmo : Int) :
    (∀ t : Nat, Describe ((NewScraper ip tp tmo).atTally t) =
      ([⟨"kube_pod_ephemeral_storage_used_bytes", "Ephemeral storage used in bytes",
          ["node", "namespace", "pod"]⟩,
        ⟨"kubelet_summary_exporter_errors", "Errors scraping kubelet stats summary", ["type"]⟩],
       (NewScraper ip tp tmo).atTally t))
    ∧ (∀ (cs : List Call) (o : Outcome), o ∈ runCalls fold (NewScraper ip tp tmo) cs →
        Describe o.scraper =
          ([⟨"kube_pod_ephemeral_storage_used_bytes", "Ephemeral storage used in bytes",
              ["node", "namespace", "pod"]⟩,
            ⟨"kubelet_summary_exporter_errors", "Errors scraping kubelet stats summary",
              ["type"]⟩],
           o.scraper)) := by
  refine ⟨fun t => rfl, ?_⟩
  intro cs o ho
  obtain ⟨t2, ht2⟩ := runCalls_built fold ip tp tmo cs 0 o ho
  rw [ht2]
  rfl

/-- **C9.** The error tally is monotone: a collector built by `NewScraper`
starts at tally 0; every invocation (`Describe`, or `Collect` in any state of
the world) leaves the tally unchanged or raises it by exactly one; along every
run of invocations the tally never decreases; and the values of the
error-counter samples sent over the run are non-decreasing. -/
theorem error_tally_monotone (fold : String → String) (ip tp : String) (tmo : Int) :
    (NewScraper ip tp tmo).errCnt = 0
    ∧ (∀ (s : Scraper) (c : Call),
        (invoke fold s c).scraper.errCnt = s.errCnt
        ∨ (invoke fold s c).scraper.errCnt = s.errCnt + 1)
    ∧ (∀ (s : Scraper) (cs : List Call),
        List.Chain (fun a b => a ≤ b) s.errCnt
          ((runCalls fold s cs).map (fun o => o.scraper.errCnt)))
    ∧ (∀ (s : Scraper) (cs : List Call),
        List.Pairwise (fun a b => a ≤ b) (counterValues (allEmitted (runCalls fold s cs)))) :=
  ⟨rfl, invoke_errCnt fold, fun s cs => runCalls_tally_chain fold cs s,
   fun s cs => (runCalls_counter_values fold cs s).1⟩

/-! ## Decoding: members the decoder skips -/

theorem decodeStruct_addField {α : Type} (setField : α → String → JSON → Except ParseError α)
    (before after : List (String × JSON)) (key : String) (v : JSON)
    (hskip : ∀ acc, setField acc key v = .ok acc) (cur : α) :
    decodeStruct setField cur (.obj (before ++ (key, v) :: after))
      = decodeStruct setField cur (.obj (before ++ after)) := by
  simp only [decodeStruct, List.foldlM_append, List.foldlM_cons]
  congr 1
  funext acc
  rw [hskip acc]
  rfl

theorem decodeStruct_inField {α : Type} (setField : α → String → JSON → Except ParseError α)
    (before after : List (String × JSON)) (key : String) (v1 v2 : JSON)
    (hsame : ∀ acc, setField acc key v2 = setField acc key v1) (cur : α) :
    decodeStruct setField cur (.obj (before ++ (key, v2) :: after))
      = decodeStruct setField cur (.obj (before ++ (key, v1) :: after)) := by
  simp only [decodeStruct, List.foldlM_append, List.foldlM_cons]
  congr 1
  funext acc
  rw [hsame acc]

theorem decodeElems_inItem {α : Type} (zero : α) (dec : α → JSON → Except ParseError α)
    (v1 v2 : JSON) (hsame : ∀ cur, dec cur v2 = dec cur v1) (after : List JSON) :
    ∀ (before : List JSON) (backing : List α),
      decodeElems zero dec backing (before ++ v2 :: after)
        = decodeElems zero dec backing (before ++ v1 :: after) := by
  intro before
  induction before with
  | nil =>
    intro backing
    cases backing with
    | nil => simp only [List.nil_append, decodeElems, hsame]
    | cons x0 backing => simp only [List.nil_append, decodeElems, hsame]
  | cons j js ih =>
    intro backing
    cases backing with
    | nil => simp only [List.cons_append, decodeElems, List.append_eq, ih]
    | cons x0 backing => simp only [List.cons_append, decodeElems, List.append_eq, ih]

theorem decodeSlice_inItem {α : Type} (zero : α) (dec : α → JSON → Except ParseError α)
    (v1 v2 : JSON) (hsame : ∀ cur, dec cur v2 = dec cur v1) (before after : List JSON)
    (cur : Slice α) :
    decodeSlice zero dec cur (.arr (before ++ v2 :: after))
      = decodeSlice zero dec cur (.arr (before ++ v1 :: after)) := by
  have h := decodeElems_inItem zero dec v1 v2 hsame after before cur.backing
  cases before with
  | nil =>
    simp only [List.nil_append] at h ⊢
    simp only [decodeSlice, h, List.length_cons]
  | cons j js =>
    simp only [List.cons_append] at h ⊢
    simp only [decodeSlice, h, List.length_cons, List.length_append]

theorem AddsUnknown.null_iff {fold : String → String} {k : Option Kind} {j1 j2 : JSON}
    (h : AddsUnknown fold k j1 j2) : j1 = .null ↔ j2 = .null := by
  induction h with
  | refl k j => exact Iff.rfl
  | trans k j1 j2 j3 _ _ ih1 ih2 => exact ih1.trans ih2
  | addField k before after key v _ => constructor <;> intro h <;> cases h
  | inField k before after key v1 v2 _ _ => constructor <;> intro h <;> cases h
  | inItem k before after v1 v2 _ _ => constructor <;> intro h <;> cases h

theorem decodePtr_alike {α : Type} (zero : α) (dec : α → JSON → Except ParseError α)
    (v1 v2 : JSON) (hnull : v1 = .null ↔ v2 = .null) (hsame : ∀ cur, dec cur v2 = dec cur v1)
    (cur : Option α) : decodePtr zero dec cur v2 = decodePtr zero dec cur v1 := by
  by_cases h1 : v1 = .null
  · rw [h1, hnull.mp h1]
  · have h2 : v2 ≠ .null := fun h => h1 (hnull.mpr h)
    have e1 : decodePtr zero dec cur v1 = (dec (cur.getD zero) v1).map some := by
      cases v1 <;> first | rfl | exact absurd rfl h1
    have e2 : decodePtr zero dec cur v2 = (dec (cur.getD zero) v2).map some := by
      cases v2 <;> first | rfl | exact absurd rfl h2
    rw [e1, e2, hsame]

theorem setVolumeField_skip (fold : String → String) (key : String) (v : JSON)
    (h : childKind fold (some .volume) key = none) (acc : Volume) :
    setVolumeField fold acc key v = .ok acc := by
  unfold setVolumeField
  simp only [childKind] at h
  split <;> simp_all

theorem setPodRefField_skip (fold : String → String) (key : String) (v : JSON)
    (h : childKind fold (some .podRef) key = none) (acc : PodRef) :
    setPodRefField fold acc key v = .ok acc := by
  unfold setPodRefField
  simp only [childKind] at h
  split <;> simp_all

theorem setPodField_skip (fold : String → String) (key : String) (v : JSON)
    (h : childKind fold (some .pod) key = none) (acc : Pod) :
    setPodField fold acc key v = .ok acc := by
  unfold setPodField
  simp only [childKind] at h
  split <;> simp_all

theorem setNodeField_skip (fold : String → String) (key : String) (v : JSON)
    (h : childKind fold (some .node) key = none) (acc : Node) :
    setNodeField fold acc key v = .ok acc := by
  unfold setNodeField
  simp only [childKind] at h
  split <;> simp_all

theorem setSummaryField_skip (fold : String → String) (key : String) (v : JSON)
    (h : childKind fold (some .summary) key = none) (acc : Summary) :
    setSummaryField fold acc key v = .ok acc := by
  unfold setSummaryField
  simp only [childKind] at h
  split <;> simp_all

theorem setVolumeField_alike (fold : String → String) (key : String) (v1 v2 : JSON)
    (h : DecodeAlike fold (childKind fold (some .volume) key) v1 v2) (acc : Volume) :
    setVolumeField fold acc key v2 = setVolumeField fold acc key v1 := by
  unfold setVolumeField
  simp only [childKind] at h
  split
  · rename_i heq
    simp only [heq, DecodeAlike] at h
    rw [h]
  · rename_i heq
    simp only [heq, DecodeAlike] at h
    rw [h]
  · rfl

theorem setPodRefField_alike (fold : String → String) (key : String) (v1 v2 : JSON)
    (h : DecodeAlike fold (childKind fold (some .podRef) key) v1 v2) (acc : PodRef) :
    setPodRefField fold acc key v2 = setPodRefField fold acc key v1 := by
  unfold setPodRefField
  simp only [childKind] at h
  split
  · rename_i heq
    simp only [heq, DecodeAlike] at h
    rw [h]
  · rename_i heq
    simp only [heq, DecodeAlike] at h
    rw [h]
  · rfl

theorem setNodeField_alike (fold : String → String) (key : String) (v1 v2 : JSON)
    (h : DecodeAlike fold (childKind fold (some .node) key) v1 v2) (acc : Node) :
    setNodeField fold acc key v2 = setNodeField fold acc key v1 := by
  unfold setNodeField
  simp only [childKind] at h
  split
  · rename_i heq
    simp only [heq, DecodeAlike] at h
    rw [h]
  · rfl

theorem setPodField_alike (fold : String → String) (key : String) (v1 v2 : JSON)
    (hnull : v1 = .null ↔ v2 = .null)
    (h : DecodeAlike fold (childKind fold (some .pod) key) v1 v2) (acc : Pod) :
    setPodField fold acc key v2 = setPodField fold acc key v1 := by
  unfold setPodField
  simp only [childKind] at h
  split
  · rename_i heq
    simp only [heq, DecodeAlike] at h
    rw [h]
  · rename_i heq
    simp only [heq, DecodeAlike] at h
    rw [decodePtr_alike Volume.zero (decodeVolume fold) v1 v2 hnull h]
  · rfl

theorem setSummaryField_alike (fold : String → String) (key : String) (v1 v2 : JSON)
    (h : DecodeAlike fold (childKind fold (some .summary) key) v1 v2) (acc : Summary) :
    setSummaryField fold acc key v2 = setSummaryField fold acc key v1 := by
  unfold setSummaryField
  simp only [childKind] at h
  split
  · rename_i heq
    simp only [heq, DecodeAlike] at h
    rw [h]
  · rename_i heq
    simp only [heq, DecodeAlike] at h
    rw [h]
  · rfl

/-- Adding unknown fields does not change what the decoder makes of a value,
at any position. -/
theorem AddsUnknown.decodeAlike {fold : String → String} {k : Option Kind} {j1 j2 : JSON}
    (h : AddsUnknown fold k j1 j2) : DecodeAlike fold k j1 j2 := by
  induction h with
  | refl k j =>
    cases k with
    | none => trivial
    | some kd => cases kd <;> exact fun _ => rfl
  | trans k j1 j2 j3 _ _ ih1 ih2 =>
    cases k with
    | none => trivial
    | some kd => cases kd <;> exact fun cur => (ih2 cur).trans (ih1 cur)
  | addField k before after key v hck =>
    cases k with
    | none => trivial
    | some kd =>
      cases kd with
      | summary =>
        exact decodeStruct_addField _ before after key v (setSummaryField_skip fold key v hck)
      | node => exact decodeStruct_addField _ before after key v (setNodeField_skip fold key v hck)
      | pods => exact fun _ => rfl
      | pod => exact decodeStruct_addField _ before after key v (setPodField_skip fold key v hck)
      | podRef =>
        exact decodeStruct_addField _ before after key v (setPodRefField_skip fold key v hck)
      | volume =>
        exact decodeStruct_addField _ before after key v (setVolumeField_skip fold key v hck)
      | string => exact fun _ => rfl
      | int64 => exact fun _ => rfl
  | inField k before after key v1 v2 hsub ih =>
    cases k with
    | none => trivial
    | some kd =>
      cases kd with
      | summary =>
        exact decodeStruct_inField _ before after key v1 v2 (setSummaryField_alike fold key v1 v2 ih)
      | node =>
        exact decodeStruct_inField _ before after key v1 v2 (setNodeField_alike fold key v1 v2 ih)
      | pods => exact fun _ => rfl
      | pod =>
        exact decodeStruct_inField _ before after key v1 v2
          (setPodField_alike fold key v1 v2 hsub.null_iff ih)
      | podRef =>
        exact decodeStruct_inField _ before after key v1 v2 (setPodRefField_alike fold key v1 v2 ih)
      | volume =>
        exact decodeStruct_inField _ before after key v1 v2 (setVolumeField_alike fold key v1 v2 ih)
      | string => exact fun _ => rfl
      | int64 => exact fun _ => rfl
  | inItem k before after v1 v2 hsub ih =>
    cases k with
    | none => trivial
    | some kd =>
      cases kd with
      | pods =>
        exact decodeSlice_inItem none (decodePtr Pod.zero (decodePod fold)) v1 v2
          (decodePtr_alike Pod.zero (decodePod fold) v1 v2 hsub.null_iff ih) before after
      | summary => exact fun _ => rfl
      | node => exact fun _ => rfl
      | pod => exact fun _ => rfl
      | podRef => exact fun _ => rfl
      | volume => exact fun _ => rfl
      | string => exact fun _ => rfl
      | int64 => exact fun _ => rfl

theorem parse_addsUnknown (fold : String → String) (j1 j2 : JSON)
    (h : AddsUnknown fold (some .summary) j1 j2) :
    parse fold (some j2) = parse fold (some j1) :=
  h.decodeAlike Summary.zero

/-! ## Decoding: success is well-typedness -/

theorem map_ok_iff {α β : Type} (f : α → β) (x : Except ParseError α) :
    (∃ r, x.map f = .ok r) ↔ ∃ r, x = .ok r := by
  cases x with
  | error e => constructor <;> rintro ⟨r, h⟩ <;> cases h
  | ok a => exact ⟨fun _ => ⟨a, rfl⟩, fun _ => ⟨f a, rfl⟩⟩

theorem decodeString_ok_iff (cur : String) (j : JSON) :
    (∃ r, decodeString cur j = .ok r) ↔ okString j = true := by
  cases j <;> simp [decodeString, okString]

theorem decodeInt64_ok_iff (cur : Int) (j : JSON) :
    (∃ r, decodeInt64 cur j = .ok r) ↔ okInt64 j = true := by
  cases j with
  | int n =>
    simp only [decodeInt64, okInt64, decide_eq_true_eq]
    split
    · rename_i h; exact ⟨fun _ => h, fun _ => ⟨n, rfl⟩⟩
    · rename_i h
      constructor
      · rintro ⟨r, hr⟩; cases hr
      · intro h2; exact absurd h2 h
  | _ => simp [decodeInt64, okInt64]

theorem foldlM_ok_iff {α : Type} (step : α → String × JSON → Except ParseError α)
    (okf : String × JSON → Bool)
    (hstep : ∀ acc kv, (∃ r, step acc kv = .ok r) ↔ okf kv = true) (l : List (String × JSON)) :
    ∀ acc, (∃ r, l.foldlM step acc = .ok r) ↔ l.all okf = true := by
  induction l with
  | nil => intro acc; simp [List.foldlM, pure, Except.pure]
  | cons kv l ih =>
    intro acc
    rw [List.foldlM_cons, List.all_cons, Bool.and_eq_true]
    cases hs : step acc kv with
    | error e =>
      have hno : ¬ okf kv = true := fun hk => by
        obtain ⟨r, hr⟩ := (hstep acc kv).mpr hk
        rw [hs] at hr
        cases hr
      constructor
      · rintro ⟨r, hr⟩; cases hr
      · rintro ⟨hk, _⟩; exact absurd hk hno
    | ok a =>
      have hyes : okf kv = true := (hstep acc kv).mp ⟨a, hs⟩
      show (∃ r, l.foldlM step a = .ok r) ↔ _
      rw [ih a]
      exact ⟨fun h => ⟨hyes, h⟩, fun h => h.2⟩

theorem decodeStruct_ok_iff {α : Type} (setField : α → String → JSON → Except ParseError α)
    (okField : String → JSON → Bool)
    (hfield : ∀ acc key v, (∃ r, setField acc key v = .ok r) ↔ okField key v = true)
    (cur : α) (j : JSON) :
    (∃ r, decodeStruct setField cur j = .ok r) ↔ okStruct okField j = true := by
  cases j with
  | obj members =>
    exact foldlM_ok_iff (fun acc kv => setField acc kv.1 kv.2) (fun kv => okField kv.1 kv.2)
      (fun acc kv => hfield acc kv.1 kv.2) members cur
  | _ => simp [decodeStruct, okStruct]

theorem decodePtr_ok_iff {α : Type} (zero : α) (dec : α → JSON → Except ParseError α)
    (ok : JSON → Bool) (hdec : ∀ cur j, (∃ r, dec cur j = .ok r) ↔ ok j = true)
    (cur : Option α) (j : JSON) :
    (∃ r, decodePtr zero dec cur j = .ok r) ↔ okPtr ok j = true := by
  cases j with
  | null => simp [decodePtr, okPtr]
  | _ => simp only [decodePtr, okPtr, map_ok_iff, hdec]

theorem decodeElems_ok_iff {α : Type} (zero : α) (dec : α → JSON → Except ParseError α)
    (ok : JSON → Bool) (hdec : ∀ cur j, (∃ r, dec cur j = .ok r) ↔ ok j = true)
    (items : List JSON) :
    ∀ backing, (∃ r, decodeElems zero dec backing items = .ok r) ↔ items.all ok = true := by
  induction items with
  | nil => intro backing; simp [decodeElems]
  | cons j js ih =>
    intro backing
    rw [List.all_cons, Bool.and_eq_true]
    have step : ∀ (x0 : α) (rest : List α),
        (∃ r, (do
          let x ← dec x0 j
          let tl ← decodeElems zero dec rest js
          pure (x :: tl) : Except ParseError (List α)) = .ok r)
        ↔ (ok j = true ∧ js.all ok = true) := by
      intro x0 rest
      cases hx : dec x0 j with
      | error e =>
        have hno : ¬ ok j = true := fun hk => by
          obtain ⟨r, hr⟩ := (hdec x0 j).mpr hk
          rw [hx] at hr
          cases hr
        constructor
        · rintro ⟨r, hr⟩; cases hr
        · rintro ⟨hk, _⟩; exact absurd hk hno
      | ok x =>
        have hyes : ok j = true := (hdec x0 j).mp ⟨x, hx⟩
        cases ht : decodeElems zero dec rest js with
        | error e =>
          have hno : ¬ js.all ok = true := fun hk => by
            obtain ⟨r, hr⟩ := (ih rest).mpr hk
            rw [ht] at hr
            cases hr
          constructor
          · rintro ⟨r, hr⟩
            simp only [bind, Except.bind, ht] at hr
            cases hr
          · rintro ⟨_, hk⟩; exact absurd hk hno
        | ok tl =>
          have hall : js.all ok = true := (ih rest).mp ⟨tl, ht⟩
          constructor
          · intro _; exact ⟨hyes, hall⟩
          · intro _
            refine ⟨x :: tl, ?_⟩
            simp only [bind, Except.bind, ht]
            rfl
    cases backing with
    | nil => simpa only [decodeElems] using step zero []
    | cons x0 rest => simpa only [decodeElems] using step x0 rest

theorem decodeSlice_ok_iff {α : Type} (zero : α) (dec : α → JSON → Except ParseError α)
    (ok : JSON → Bool) (hdec : ∀ cur j, (∃ r, dec cur j = .ok r) ↔ ok j = true)
    (cur : Slice α) (j : JSON) :
    (∃ r, decodeSlice zero dec cur j = .ok r) ↔ okSlice ok j = true := by
  cases j with
  | arr items =>
    cases items with
    | nil => simp [decodeSlice, okSlice]
    | cons j js =>
      have h := decodeElems_ok_iff zero dec ok hdec (j :: js) cur.backing
      simp only [okSlice]
      rw [← h]
      simp only [decodeSlice]
      cases decodeElems zero dec cur.backing (j :: js) with
      | error e =>
        constructor <;> rintro ⟨r, hr⟩ <;> cases hr
      | ok b => exact ⟨fun _ => ⟨b, rfl⟩, fun _ => ⟨_, rfl⟩⟩
  | _ => simp [decodeSlice, okSlice]

theorem setVolumeField_ok_iff (fold : String → String) (acc : Volume) (key : String)
    (v : JSON) : (∃ r, setVolumeField fold acc key v = .ok r) ↔ okVolumeField fold key v = true := by
  unfold setVolumeField okVolumeField
  split
  · rw [map_ok_iff, decodeInt64_ok_iff]
  · rw [map_ok_iff, decodeInt64_ok_iff]
  · exact ⟨fun _ => rfl, fun _ => ⟨acc, rfl⟩⟩

theorem decodeVolume_ok_iff (fold : String → String) (cur : Volume) (j : JSON) :
    (∃ r, decodeVolume fold cur j = .ok r) ↔ okStruct (okVolumeField fold) j = true :=
  decodeStruct_ok_iff _ _ (setVolumeField_ok_iff fold) cur j

theorem setPodRefField_ok_iff (fold : String → String) (acc : PodRef) (key : String)
    (v : JSON) : (∃ r, setPodRefField fold acc key v = .ok r) ↔ okPodRefField fold key v = true := by
  unfold setPodRefField okPodRefField
  split
  · rw [map_ok_iff, decodeString_ok_iff]
  · rw [map_ok_iff, decodeString_ok_iff]
  · exact ⟨fun _ => rfl, fun _ => ⟨acc, rfl⟩⟩

theorem decodePodRef_ok_iff (fold : String → String) (cur : PodRef) (j : JSON) :
    (∃ r, decodePodRef fold cur j = .ok r) ↔ okStruct (okPodRefField fold) j = true :=
  decodeStruct_ok_iff _ _ (setPodRefField_ok_iff fold) cur j

theorem setPodField_ok_iff (fold : String → String) (acc : Pod) (key : String)
    (v : JSON) : (∃ r, setPodField fold acc key v = .ok r) ↔ okPodField fold key v = true := by
  unfold setPodField okPodField
  split
  · rw [map_ok_iff, decodePodRef_ok_iff]
  · rw [map_ok_iff, decodePtr_ok_iff _ _ _ (decodeVolume_ok_iff fold)]
  · exact ⟨fun _ => rfl, fun _ => ⟨acc, rfl⟩⟩

theorem decodePod_ok_iff (fold : String → String) (cur : Pod) (j : JSON) :
    (∃ r, decodePod fold cur j = .ok r) ↔ okStruct (okPodField fold) j = true :=
  decodeStruct_ok_iff _ _ (setPodField_ok_iff fold) cur j

theorem setNodeField_ok_iff (fold : String → String) (acc : Node) (key : String)
    (v : JSON) : (∃ r, setNodeField fold acc key v = .ok r) ↔ okNodeField fold key v = true := by
  unfold setNodeField okNodeField
  split
  · rw [map_ok_iff, decodeString_ok_iff]
  · exact ⟨fun _ => rfl, fun _ => ⟨acc, rfl⟩⟩

theorem decodeNode_ok_iff (fold : String → String) (cur : Node) (j : JSON) :
    (∃ r, decodeNode fold cur j = .ok r) ↔ okStruct (okNodeField fold) j = true :=
  decodeStruct_ok_iff _ _ (setNodeField_ok_iff fold) cur j

theorem decodePods_ok_iff (fold : String → String) (cur : Slice (Option Pod)) (j : JSON) :
    (∃ r, decodePods fold cur j = .ok r)
      ↔ okSlice (okPtr (okStruct (okPodField fold))) j = true :=
  decodeSlice_ok_iff _ _ _
    (fun c v => decodePtr_ok_iff Pod.zero (decodePod fold) _ (decodePod_ok_iff fold) c v) cur j

theorem setSummaryField_ok_iff (fold : String → String) (acc : Summary) (key : String)
    (v : JSON) : (∃ r, setSummaryField fold acc key v = .ok r) ↔ okSummaryField fold key v = true := by
  unfold setSummaryField okSummaryField
  split
  · rw [map_ok_iff, decodeNode_ok_iff]
  · rw [map_ok_iff, decodePods_ok_iff]
  · exact ⟨fun _ => rfl, fun _ => ⟨acc, rfl⟩⟩

theorem parse_ok_iff_wellTyped (fold : String → String) (j : JSON) :
    (∃ sm, parse fold (some j) = .ok sm) ↔ wellTyped fold j = true :=
  decodeStruct_ok_iff _ _ (setSummaryField_ok_iff fold) Summary.zero j

/-! ## Decoding: the document that carries a summary -/

theorem findField_exact (fold : String → String) (names : List String) (key : String)
    (h : key ∈ names) : findField fold names key = some key := by
  unfold findField
  have hfind : names.find? (fun n => n == key) = some key := by
    induction names with
    | nil => cases h
    | cons n ns ih =>
      by_cases hn : n = key
      · subst hn; simp [List.find?]
      · have hmem : key ∈ ns := by
          rcases List.mem_cons.mp h with h1 | h1
          · exact absurd h1.symm hn
          · exact h1
        have hb : (n == key) = false := by simpa using hn
        simp only [List.find?, hb, ih hmem]
  rw [hfind]

theorem decodePtr_podDoc (fold : String → String) (p : Option Pod) (h : podInRange p = true)
    (cur : Option Pod) (hcur : cur = none) :
    decodePtr Pod.zero (decodePod fold) cur (podDoc p) = .ok p := by
  subst hcur
  cases p with
  | none => rfl
  | some pod =>
    obtain ⟨⟨name, ns⟩, es⟩ := pod
    have hpr : findField fold podFields "podRef" = some "podRef" :=
      findField_exact fold _ _ (by simp [podFields])
    have hes : findField fold podFields "ephemeral-storage" = some "ephemeral-storage" :=
      findField_exact fold _ _ (by simp [podFields])
    have hname : findField fold podRefFields "name" = some "name" :=
      findField_exact fold _ _ (by simp [podRefFields])
    have hns : findField fold podRefFields "namespace" = some "namespace" :=
      findField_exact fold _ _ (by simp [podRefFields])
    have hub : findField fold volumeFields "usedBytes" = some "usedBytes" :=
      findField_exact fold _ _ (by simp [volumeFields])
    have hab : findField fold volumeFields "availableBytes" = some "availableBytes" :=
      findField_exact fold _ _ (by simp [volumeFields])
    cases es with
    | none =>
      simp [podDoc, decodePtr, decodePod, decodeStruct, List.foldlM, setPodField, hpr,
        decodePodRef, setPodRefField, hname, hns, decodeString, Except.map, bind, Except.bind,
        Pod.zero, pure, Except.pure]
    | some vol =>
      obtain ⟨used, avail⟩ := vol
      simp only [podInRange, decide_eq_true_eq] at h
      have h1 : -(2 : Int) ^ 63 ≤ used ∧ used < (2 : Int) ^ 63 := ⟨h.1, h.2.1⟩
      have h2 : -(2 : Int) ^ 63 ≤ avail ∧ avail < (2 : Int) ^ 63 := ⟨h.2.2.1, h.2.2.2⟩
      norm_num at h1 h2
      simp [podDoc, decodePtr, decodePod, decodeStruct, List.foldlM, setPodField, hpr, hes,
        decodePodRef, setPodRefField, hname, hns, decodeString, Except.map, bind, Except.bind,
        Pod.zero, pure, Except.pure, decodeVolume, setVolumeField, hub, hab, decodeInt64, h1, h2,
        Volume.zero]

theorem decodeElems_podDocs (fold : String → String) (pods : List (Option Pod))
    (h : pods.all podInRange = true) :
    decodeElems none (decodePtr Pod.zero (decodePod fold)) [] (pods.map podDoc) = .ok pods := by
  induction pods with
  | nil => rfl
  | cons p ps ih =>
    rw [List.all_cons, Bool.and_eq_true] at h
    simp only [List.map_cons, decodeElems, decodePtr_podDoc fold p h.1 none rfl, ih h.2]
    rfl

theorem decodePods_podDocs (fold : String → String) (pods : List (Option Pod))
    (h : pods.all podInRange = true) :
    decodePods fold Slice.nil (.arr (pods.map podDoc)) = .ok (Slice.ofList pods) := by
  cases pods with
  | nil => rfl
  | cons p ps =>
    have he := decodeElems_podDocs fold (p :: ps) h
    simp only [List.map_cons] at he
    simp only [decodePods, decodeSlice, List.map_cons, Slice.nil, he, List.length_cons,
      List.length_map]
    rfl

theorem parse_summaryDoc (fold : String → String) (nodeName : String) (pods : List (Option Pod))
    (h : pods.all podInRange = true) :
    parse fold (some (summaryDoc nodeName pods)) = .ok ⟨⟨nodeName⟩, Slice.ofList pods⟩ := by
  have hnode : findField fold summaryFields "node" = some "node" :=
    findField_exact fold _ _ (by simp [summaryFields])
  have hpods : findField fold summaryFields "pods" = some "pods" :=
    findField_exact fold _ _ (by simp [summaryFields])
  have hnn : findField fold nodeFields "nodeName" = some "nodeName" :=
    findField_exact fold _ _ (by simp [nodeFields])
  have hp := decodePods_podDocs fold pods h
  simp only [Slice.nil] at hp
  simp [parse, summaryDoc, decodeSummary, decodeStruct, List.foldlM, setSummaryField, hnode, hpods,
    decodeNode, setNodeField, hnn, decodeString, Except.map, bind, Except.bind, pure, Except.pure,
    Summary.zero, Slice.nil, hp]

/-- The extended example document is the example document with unknown fields
added. -/
theorem exampleDoc_extended :
    AddsUnknown asciiFold (some .summary) exampleDoc exampleDocExtended := by
  have hRef : AddsUnknown asciiFold (some .podRef)
      (.obj [("name", .str "p1"), ("namespace", .str "ns1")])
      (.obj [("name", .str "p1"), ("namespace", .str "ns1"), ("uid", .str "5fbb63da")]) :=
    AddsUnknown.addField (some .podRef) [("name", .str "p1"), ("namespace", .str "ns1")] []
      "uid" (.str "5fbb63da") (by decide)
  have hVol : AddsUnknown asciiFold (some .volume)
      (.obj [("usedBytes", .int 36864), ("availableBytes", .int 92321636352)])
      (.obj [("capacityBytes", .int 25674731520), ("usedBytes", .int 36864),
             ("inodes", .float "6.268245e6"), ("availableBytes", .int 92321636352)]) :=
    AddsUnknown.trans _ _ _ _
      (AddsUnknown.addField (some .volume) []
        [("usedBytes", .int 36864), ("availableBytes", .int 92321636352)]
        "capacityBytes" (.int 25674731520) (by decide))
      (AddsUnknown.addField (some .volume)
        [("capacityBytes", .int 25674731520), ("usedBytes", .int 36864)]
        [("availableBytes", .int 92321636352)] "inodes" (.float "6.268245e6") (by decide))
  have hPod : AddsUnknown asciiFold (some .pod)
      (.obj [("podRef", .obj [("name", .str "p1"), ("namespace", .str "ns1")]),
             ("ephemeral-storage",
               .obj [("usedBytes", .int 36864), ("availableBytes", .int 92321636352)])])
      (.obj [("podRef", .obj [("name", .str "p1"), ("namespace", .str "ns1"),
                              ("uid", .str "5fbb63da")]),
             ("volume", .arr [.obj [("name", .str "vault-client")]]),
             ("ephemeral-storage",
               .obj [("capacityBytes", .int 25674731520), ("usedBytes", .int 36864),
                     ("inodes", .float "6.268245e6"), ("availableBytes", .int 92321636352)])]) :=
    AddsUnknown.trans _ _ _ _
      (AddsUnknown.inField (some .pod) []
        [("ephemeral-storage",
          .obj [("usedBytes", .int 36864), ("availableBytes", .int 92321636352)])]
        "podRef" _ _ hRef)
      (AddsUnknown.trans _ _ _ _
        (AddsUnknown.inField (some .pod)
          [("podRef", .obj [("name", .str "p1"), ("namespace", .str "ns1"),
                            ("uid", .str "5fbb63da")])]
          [] "ephemeral-storage" _ _ hVol)
        (AddsUnknown.addField (some .pod)
          [("podRef", .obj [("name", .str "p1"), ("namespace", .str "ns1"),
                            ("uid", .str "5fbb63da")])]
          [("ephemeral-storage",
            .obj [("capacityBytes", .int 25674731520), ("usedBytes", .int 36864),
                  ("inodes", .float "6.268245e6"), ("availableBytes", .int 92321636352)])]
          "volume" (.arr [.obj [("name", .str "vault-client")]]) (by decide)))
  have hPods : AddsUnknown asciiFold (some .pods)
      (.arr [.obj [("podRef", .obj [("name", .str "p1"), ("namespace", .str "ns1")]),
             ("ephemeral-storage",
               .obj [("usedBytes", .int 36864), ("availableBytes", .int 92321636352)])]])
      (.arr [.obj [("podRef", .obj [("name", .str "p1"), ("namespace", .str "ns1"),
                              ("uid", .str "5fbb63da")]),
             ("volume", .arr [.obj [("name", .str "vault-client")]]),
             ("ephemeral-storage",
               .obj [("capacityBytes", .int 25674731520), ("usedBytes", .int 36864),
                     ("inodes", .float "6.268245e6"), ("availableBytes", .int 92321636352)])]]) :=
    AddsUnknown.inItem (some .pods) [] [] _ _ hPod
  have hNode : AddsUnknown asciiFold (some .node)
      (.obj [("nodeName", .str "ip-1")])
      (.obj [("nodeName", .str "ip-1"), ("memory", .obj [("rssBytes", .int 1)])]) :=
    AddsUnknown.addField (some .node) [("nodeName", .str "ip-1")] [] "memory"
      (.obj [("rssBytes", .int 1)]) (by decide)
  unfold exampleDoc exampleDocExtended
  refine AddsUnknown.trans _ _ _ _
    (AddsUnknown.inField (some .summary) [] [("pods", _)] "node" _ _ hNode) ?_
  refine AddsUnknown.trans _ _ _ _
    (AddsUnknown.inField (some .summary) [("node", _)] [] "pods" _ _ hPods) ?_
  refine AddsUnknown.trans _ _ _ _
    (AddsUnknown.addField (some .summary) [] [("node", _), ("pods", _)] "time"
      (.str "2019-11-25T20:33:19Z") (by decide)) ?_
  exact AddsUnknown.addField (some .summary) [("time", _), ("node", _), ("pods", _)] [] "cpu"
    .null (by decide)

/-! ## Decoding: the summary read off a tidy document -/

theorem member?_cons_sel (fold : String → String) (names : List String) (field : String)
    (kv : String × JSON) (tl : List (String × JSON)) (h : selects fold names field kv = true) :
    member? fold names field (kv :: tl) = some kv.2 := by
  simp [member?, List.find?, h]

theorem member?_cons_not (fold : String → String) (names : List String) (field : String)
    (kv : String × JSON) (tl : List (String × JSON)) (h : selects fold names field kv = false) :
    member? fold names field (kv :: tl) = member? fold names field tl := by
  simp [member?, List.find?, h]

theorem once_cons_sel (fold : String → String) (names : List String) (field : String)
    (kv : String × JSON) (tl : List (String × JSON)) (h : selects fold names field kv = true)
    (ho : once fold names field (kv :: tl) = true) :
    member? fold names field tl = none ∧ once fold names field tl = true := by
  simp only [once, List.filter_cons, h, if_true, List.length_cons, decide_eq_true_eq] at ho
  have hnil : tl.filter (selects fold names field) = [] := by
    apply List.eq_nil_of_length_eq_zero
    omega
  constructor
  · simp only [member?, Option.map_eq_none']
    rw [List.find?_eq_none]
    intro x hx hsel
    have : x ∈ tl.filter (selects fold names field) := List.mem_filter.mpr ⟨hx, hsel⟩
    rw [hnil] at this
    cases this
  · simp [once, hnil]

theorem once_cons_not (fold : String → String) (names : List String) (field : String)
    (kv : String × JSON) (tl : List (String × JSON)) (h : selects fold names field kv = false)
    (ho : once fold names field (kv :: tl) = true) :
    once fold names field tl = true := by
  simpa [once, List.filter_cons, h] using ho

theorem read_cons {α : Type} (r : α → Option JSON → α) (hnone : ∀ x, r x none = x)
    (fold : String → String) (names : List String) (field : String)
    (kv : String × JSON) (tl : List (String × JSON))
    (ho : once fold names field (kv :: tl) = true) (cur : α) :
    r (if selects fold names field kv = true then r cur (some kv.2) else cur)
        (member? fold names field tl)
      = r cur (member? fold names field (kv :: tl)) := by
  cases hs : selects fold names field kv with
  | true =>
    obtain ⟨hm, _⟩ := once_cons_sel fold names field kv tl hs ho
    rw [member?_cons_sel fold names field kv tl hs, hm, hnone]
    simp
  | false =>
    rw [member?_cons_not fold names field kv tl hs]
    simp

theorem once_tail (fold : String → String) (names : List String) (field : String)
    (kv : String × JSON) (tl : List (String × JSON))
    (ho : once fold names field (kv :: tl) = true) : once fold names field tl = true := by
  cases hs : selects fold names field kv with
  | true => exact (once_cons_sel fold names field kv tl hs ho).2
  | false => exact once_cons_not fold names field kv tl hs ho

theorem decodeInt64_read (cur : Int) (v : JSON) (h : okInt64 v = true) :
    decodeInt64 cur v = .ok (readInt64 cur (some v)) := by
  cases v with
  | int n =>
    simp only [okInt64, decide_eq_true_eq] at h
    simp only [decodeInt64, readInt64]
    rw [if_pos h]
  | null => rfl
  | _ => simp [okInt64] at h

theorem decodeString_read (cur : String) (v : JSON) (h : okString v = true) :
    decodeString cur v = .ok (readString cur (some v)) := by
  cases v <;> first | rfl | simp [okString] at h

theorem setVolumeField_read (fold : String → String) (acc : Volume) (kv : String × JSON)
    (h : okVolumeField fold kv.1 kv.2 = true) :
    setVolumeField fold acc kv.1 kv.2 = .ok
      ⟨if selects fold volumeFields "usedBytes" kv = true
          then readInt64 acc.UsedBytes (some kv.2) else acc.UsedBytes,
       if selects fold volumeFields "availableBytes" kv = true
          then readInt64 acc.AvailableBytes (some kv.2) else acc.AvailableBytes⟩ := by
  unfold okVolumeField at h
  unfold setVolumeField selects
  split at h
  · rename_i heq
    simp only [heq, decodeInt64_read _ _ h]
    rfl
  · rename_i heq
    simp only [heq, decodeInt64_read _ _ h]
    rfl
  · rename_i h1 h2
    have e1 : (findField fold volumeFields kv.1 == some "usedBytes") = false := by
      simpa using h1
    have e2 : (findField fold volumeFields kv.1 == some "availableBytes") = false := by
      simpa using h2
    simp [e1, e2]

theorem volume_members (fold : String → String) (ms : List (String × JSON)) :
    ∀ acc : Volume,
      ms.all (fun kv => okVolumeField fold kv.1 kv.2) = true →
      once fold volumeFields "usedBytes" ms = true →
      once fold volumeFields "availableBytes" ms = true →
      ms.foldlM (fun acc kv => setVolumeField fold acc kv.1 kv.2) acc
        = .ok ⟨readInt64 acc.UsedBytes (member? fold volumeFields "usedBytes" ms),
               readInt64 acc.AvailableBytes (member? fold volumeFields "availableBytes" ms)⟩ := by
  induction ms with
  | nil => intro acc _ _ _; rfl
  | cons kv tl ih =>
    intro acc hok hu ha
    rw [List.all_cons, Bool.and_eq_true] at hok
    rw [List.foldlM_cons, setVolumeField_read fold acc kv hok.1]
    show tl.foldlM _ _ = _
    rw [ih _ hok.2 (once_tail _ _ _ kv tl hu) (once_tail _ _ _ kv tl ha)]
    simp only [read_cons readInt64 (fun _ => rfl) fold volumeFields _ kv tl hu,
      read_cons readInt64 (fun _ => rfl) fold volumeFields _ kv tl ha]

theorem decodeVolume_read (fold : String → String) (cur : Volume) (j : JSON)
    (h : tidyStruct fold volumeFields (okVolumeField fold) j = true) :
    decodeVolume fold cur j = .ok (readVolume fold cur j) := by
  cases j with
  | obj ms =>
    simp only [tidyStruct, volumeFields, List.all_cons, List.all_nil, Bool.and_true,
      Bool.and_eq_true] at h
    exact volume_members fold ms cur h.2 h.1.1 h.1.2
  | null => rfl
  | _ => simp [tidyStruct] at h

theorem setPodRefField_read (fold : String → String) (acc : PodRef) (kv : String × JSON)
    (h : okPodRefField fold kv.1 kv.2 = true) :
    setPodRefField fold acc kv.1 kv.2 = .ok
      ⟨if selects fold podRefFields "name" kv = true
          then readString acc.Name (some kv.2) else acc.Name,
       if selects fold podRefFields "namespace" kv = true
          then readString acc.Namespace (some kv.2) else acc.Namespace⟩ := by
  unfold okPodRefField at h
  unfold setPodRefField selects
  split at h
  · rename_i heq
    simp only [heq, decodeString_read _ _ h]
    rfl
  · rename_i heq
    simp only [heq, decodeString_read _ _ h]
    rfl
  · rename_i h1 h2
    have e1 : (findField fold podRefFields kv.1 == some "name") = false := by
      simpa using h1
    have e2 : (findField fold podRefFields kv.1 == some "namespace") = false := by
      simpa using h2
    simp [e1, e2]

theorem podRef_members (fold : String → String) (ms : List (String × JSON)) :
    ∀ acc : PodRef,
      ms.all (fun kv => okPodRefField fold kv.1 kv.2) = true →
      once fold podRefFields "name" ms = true →
      once fold podRefFields "namespace" ms = true →
      ms.foldlM (fun acc kv => setPodRefField fold acc kv.1 kv.2) acc
        = .ok ⟨readString acc.Name (member? fold podRefFields "name" ms),
               readString acc.Namespace (member? fold podRefFields "namespace" ms)⟩ := by
  induction ms with
  | nil => intro acc _ _ _; rfl
  | cons kv tl ih =>
    intro acc hok hu ha
    rw [List.all_cons, Bool.and_eq_true] at hok
    rw [List.foldlM_cons, setPodRefField_read fold acc kv hok.1]
    show tl.foldlM _ _ = _
    rw [ih _ hok.2 (once_tail _ _ _ kv tl hu) (once_tail _ _ _ kv tl ha)]
    simp only [read_cons readString (fun _ => rfl) fold podRefFields _ kv tl hu,
      read_cons readString (fun _ => rfl) fold podRefFields _ kv tl ha]

theorem decodePodRef_read (fold : String → String) (cur : PodRef) (j : JSON)
    (h : tidyStruct fold podRefFields (okPodRefField fold) j = true) :
    decodePodRef fold cur j = .ok (readPodRef fold cur j) := by
  cases j with
  | obj ms =>
    simp only [tidyStruct, podRefFields, List.all_cons, List.all_nil, Bool.and_true,
      Bool.and_eq_true] at h
    exact podRef_members fold ms cur h.2 h.1.1 h.1.2
  | null => rfl
  | _ => simp [tidyStruct] at h

theorem setNodeField_read (fold : String → String) (acc : Node) (kv : String × JSON)
    (h : okNodeField fold kv.1 kv.2 = true) :
    setNodeField fold acc kv.1 kv.2 = .ok
      ⟨if selects fold nodeFields "nodeName" kv = true
          then readString acc.NodeName (some kv.2) else acc.NodeName⟩ := by
  unfold okNodeField at h
  unfold setNodeField selects
  split at h
  · rename_i heq
    simp only [heq, decodeString_read _ _ h]
    rfl
  · rename_i h1
    have e1 : (findField fold nodeFields kv.1 == some "nodeName") = false := by
      simpa using h1
    simp [e1]

theorem node_members (fold : String → String) (ms : List (String × JSON)) :
    ∀ acc : Node,
      ms.all (fun kv => okNodeField fold kv.1 kv.2) = true →
      once fold nodeFields "nodeName" ms = true →
      ms.foldlM (fun acc kv => setNodeField fold acc kv.1 kv.2) acc
        = .ok ⟨readString acc.NodeName (member? fold nodeFields "nodeName" ms)⟩ := by
  induction ms with
  | nil => intro acc _ _; rfl
  | cons kv tl ih =>
    intro acc hok hu
    rw [List.all_cons, Bool.and_eq_true] at hok
    rw [List.foldlM_cons, setNodeField_read fold acc kv hok.1]
    show tl.foldlM _ _ = _
    rw [ih _ hok.2 (once_tail _ _ _ kv tl hu)]
    simp only [read_cons readString (fun _ => rfl) fold nodeFields _ kv tl hu]

theorem decodeNode_read (fold : String → String) (cur : Node) (j : JSON)
    (h : tidyStruct fold nodeFields (okNodeField fold) j = true) :
    decodeNode fold cur j = .ok (readNode fold cur j) := by
  cases j with
  | obj ms =>
    simp only [tidyStruct, nodeFields, List.all_cons, List.all_nil, Bool.and_true,
      Bool.and_eq_true] at h
    exact node_members fold ms cur h.2 h.1
  | null => rfl
  | _ => simp [tidyStruct] at h

theorem decodeStorage_read (fold : String → String) (cur : Option Volume) (v : JSON)
    (h : okPtr (tidyStruct fold volumeFields (okVolumeField fold)) v = true) :
    decodePtr Volume.zero (decodeVolume fold) cur v = .ok (readStorage fold cur (some v)) := by
  cases v with
  | null => rfl
  | obj ms =>
    simp only [okPtr] at h
    simp only [decodePtr, decodeVolume_read fold _ _ h, readStorage]
    rfl
  | _ => simp [okPtr, tidyStruct] at h

theorem setPodField_read (fold : String → String) (acc : Pod) (kv : String × JSON)
    (h : tidyPodField fold kv.1 kv.2 = true) :
    setPodField fold acc kv.1 kv.2 = .ok
      ⟨if selects fold podFields "podRef" kv = true
          then readField (readPodRef fold) acc.PodRef (some kv.2) else acc.PodRef,
       if selects fold podFields "ephemeral-storage" kv = true
          then readStorage fold acc.EphemeralStorage (some kv.2) else acc.EphemeralStorage⟩ := by
  unfold tidyPodField at h
  unfold setPodField selects
  split at h
  · rename_i heq
    simp only [heq, decodePodRef_read _ _ _ h]
    rfl
  · rename_i heq
    simp only [heq, decodeStorage_read _ _ _ h]
    rfl
  · rename_i h1 h2
    have e1 : (findField fold podFields kv.1 == some "podRef") = false := by
      simpa using h1
    have e2 : (findField fold podFields kv.1 == some "ephemeral-storage") = false := by
      simpa using h2
    simp [e1, e2]

theorem pod_members (fold : String → String) (ms : List (String × JSON)) :
    ∀ acc : Pod,
      ms.all (fun kv => tidyPodField fold kv.1 kv.2) = true →
      once fold podFields "podRef" ms = true →
      once fold podFields "ephemeral-storage" ms = true →
      ms.foldlM (fun acc kv => setPodField fold acc kv.1 kv.2) acc
        = .ok ⟨readField (readPodRef fold) acc.PodRef (member? fold podFields "podRef" ms),
               readStorage fold acc.EphemeralStorage
                 (member? fold podFields "ephemeral-storage" ms)⟩ := by
  induction ms with
  | nil => intro acc _ _ _; rfl
  | cons kv tl ih =>
    intro acc hok hu ha
    rw [List.all_cons, Bool.and_eq_true] at hok
    rw [List.foldlM_cons, setPodField_read fold acc kv hok.1]
    show tl.foldlM _ _ = _
    rw [ih _ hok.2 (once_tail _ _ _ kv tl hu) (once_tail _ _ _ kv tl ha)]
    simp only [read_cons (readField (readPodRef fold)) (fun _ => rfl) fold podFields _ kv tl hu,
      read_cons (readStorage fold) (fun _ => rfl) fold podFields _ kv tl ha]

theorem decodePod_read (fold : String → String) (cur : Pod) (j : JSON)
    (h : tidyStruct fold podFields (tidyPodField fold) j = true) :
    decodePod fold cur j = .ok (readPod fold cur j) := by
  cases j with
  | obj ms =>
    simp only [tidyStruct, podFields, List.all_cons, List.all_nil, Bool.and_true,
      Bool.and_eq_true] at h
    exact pod_members fold ms cur h.2 h.1.1 h.1.2
  | null => rfl
  | _ => simp [tidyStruct] at h

theorem decodePodEntry_read (fold : String → String) (v : JSON)
    (h : okPtr (tidyStruct fold podFields (tidyPodField fold)) v = true) :
    decodePtr Pod.zero (decodePod fold) none v = .ok (readPodEntry fold v) := by
  cases v with
  | null => rfl
  | obj ms =>
    simp only [okPtr] at h
    simp only [decodePtr, decodePod_read fold _ _ h, readPodEntry]
    rfl
  | _ => simp [okPtr, tidyStruct] at h

theorem decodeElems_read (fold : String → String) (items : List JSON)
    (h : items.all (okPtr (tidyStruct fold podFields (tidyPodField fold))) = true) :
    decodeElems none (decodePtr Pod.zero (decodePod fold)) [] items
      = .ok (items.map (readPodEntry fold)) := by
  induction items with
  | nil => rfl
  | cons v vs ih =>
    rw [List.all_cons, Bool.and_eq_true] at h
    simp only [decodeElems, decodePodEntry_read fold v h.1, ih h.2, List.map_cons]
    rfl

theorem decodePods_read (fold : String → String) (cur : Slice (Option Pod)) (v : JSON)
    (hcur : cur.backing = [])
    (h : okSlice (okPtr (tidyStruct fold podFields (tidyPodField fold))) v = true) :
    decodePods fold cur v = .ok (readPods fold cur (some v)) := by
  cases v with
  | null => rfl
  | arr items =>
    simp only [okSlice] at h
    cases items with
    | nil => rfl
    | cons j js =>
      have he := decodeElems_read fold (j :: js) h
      simp only [decodePods, decodeSlice, hcur, he, readPods, Slice.ofList, List.length_cons,
        List.length_map, List.map_cons]
      rfl
  | _ => simp [okSlice] at h

theorem setSummaryField_read (fold : String → String) (acc : Summary) (kv : String × JSON)
    (h : tidySummaryField fold kv.1 kv.2 = true)
    (hb : selects fold summaryFields "pods" kv = true → acc.Pods.backing = []) :
    setSummaryField fold acc kv.1 kv.2 = .ok
      ⟨if selects fold summaryFields "node" kv = true
          then readField (readNode fold) acc.Node (some kv.2) else acc.Node,
       if selects fold summaryFields "pods" kv = true
          then readPods fold acc.Pods (some kv.2) else acc.Pods⟩ := by
  unfold tidySummaryField at h
  unfold selects at hb
  unfold setSummaryField selects
  split at h
  · rename_i heq
    simp only [heq, decodeNode_read _ _ _ h]
    rfl
  · rename_i heq
    have hback : acc.Pods.backing = [] := hb (by simp [heq])
    simp only [heq, decodePods_read _ _ _ hback h]
    rfl
  · rename_i h1 h2
    have e1 : (findField fold summaryFields kv.1 == some "node") = false := by
      simpa using h1
    have e2 : (findField fold summaryFields kv.1 == some "pods") = false := by
      simpa using h2
    simp [e1, e2]

theorem summary_members (fold : String → String) (ms : List (String × JSON)) :
    ∀ acc : Summary,
      ms.all (fun kv => tidySummaryField fold kv.1 kv.2) = true →
      once fold summaryFields "node" ms = true →
      once fold summaryFields "pods" ms = true →
      (member? fold summaryFields "pods" ms ≠ none → acc.Pods.backing = []) →
      ms.foldlM (fun acc kv => setSummaryField fold acc kv.1 kv.2) acc
        = .ok ⟨readField (readNode fold) acc.Node (member? fold summaryFields "node" ms),
               readPods fold acc.Pods (member? fold summaryFields "pods" ms)⟩ := by
  induction ms with
  | nil => intro acc _ _ _ _; rfl
  | cons kv tl ih =>
    intro acc hok hu ha hb
    rw [List.all_cons, Bool.and_eq_true] at hok
    have hb1 : selects fold summaryFields "pods" kv = true → acc.Pods.backing = [] := by
      intro hs
      apply hb
      rw [member?_cons_sel _ _ _ kv tl hs]
      simp
    rw [List.foldlM_cons, setSummaryField_read fold acc kv hok.1 hb1]
    show tl.foldlM _ _ = _
    have hb2 : member? fold summaryFields "pods" tl ≠ none →
        (if selects fold summaryFields "pods" kv = true
          then readPods fold acc.Pods (some kv.2) else acc.Pods).backing = [] := by
      intro hm
      cases hs : selects fold summaryFields "pods" kv with
      | true => exact absurd (once_cons_sel _ _ _ kv tl hs ha).1 hm
      | false =>
        simp only [Bool.false_eq_true, if_false]
        apply hb
        rw [member?_cons_not _ _ _ kv tl hs]
        exact hm
    rw [ih _ hok.2 (once_tail _ _ _ kv tl hu) (once_tail _ _ _ kv tl ha) hb2]
    simp only [read_cons (readField (readNode fold)) (fun _ => rfl) fold summaryFields _ kv tl hu,
      read_cons (readPods fold) (fun _ => rfl) fold summaryFields _ kv tl ha]

theorem parse_read (fold : String → String) (j : JSON) (h : tidy fold j = true) :
    parse fold (some j) = .ok (readSummary fold j) := by
  cases j with
  | obj ms =>
    simp only [tidy, tidyStruct, summaryFields, List.all_cons, List.all_nil, Bool.and_true,
      Bool.and_eq_true] at h
    exact summary_members fold ms Summary.zero h.2 h.1.1 h.1.2 (fun _ => rfl)
  | null => rfl
  | _ => simp [tidy, tidyStruct] at h

/-- **C7.** `parse`, schema and forward compatibility, for every name folding
of the decoder: `parse` succeeds exactly on the documents whose known fields
are well typed; on a document whose known fields are well typed and named at
most once per object it returns the summary read off the document, built from
exactly `node.nodeName` and, per entry of `pods` in document order,
`podRef.name`, `podRef.namespace` and, when present, the two byte counts of
`ephemeral-storage`; in particular the document that carries just these fields
of a summary decodes to that summary; adding unknown fields to any objects of
a document changes neither whether `parse` fails nor the summary it returns;
and the example document decodes to node `ip-1` with the single pod
(`p1`, `ns1`, used 36864, available 92321636352). -/
theorem parse_schema_forward_compatible (fold : String → String) :
    (∀ j, (∃ sm, parse fold (some j) = .ok sm) ↔ wellTyped fold j = true)
    ∧ (∀ j, tidy fold j = true → parse fold (some j) = .ok (readSummary fold j))
    ∧ (∀ (nodeName : String) (pods : List (Option Pod)), pods.all podInRange = true →
        parse fold (some (summaryDoc nodeName pods)) = .ok ⟨⟨nodeName⟩, Slice.ofList pods⟩)
    ∧ (∀ j1 j2, AddsUnknown fold (some .summary) j1 j2 →
        parse fold (some j2) = parse fold (some j1))
    ∧ parse fold (some exampleDoc)
        = .ok ⟨⟨"ip-1"⟩, Slice.ofList [some ⟨⟨"p1", "ns1"⟩, some ⟨36864, 92321636352⟩⟩]⟩ :=
  ⟨parse_ok_iff_wellTyped fold, parse_read fold, parse_summaryDoc fold, parse_addsUnknown fold,
   parse_summaryDoc fold "ip-1" [some ⟨⟨"p1", "ns1"⟩, some ⟨36864, 92321636352⟩⟩] (by decide)⟩

theorem parse_schema_forward_compatible_witness :
    wellTyped asciiFold exampleDocExtended = true
    ∧ parse asciiFold (some exampleDocExtended)
        = .ok ⟨⟨"ip-1"⟩, Slice.ofList [some ⟨⟨"p1", "ns1"⟩, some ⟨36864, 92321636352⟩⟩]⟩
    ∧ parse asciiFold (some exampleDocExtended)
        = .ok (readSummary asciiFold exampleDocExtended)
    ∧ parse asciiFold (some (summaryDoc "ip-1" [none, some ⟨⟨"", ""⟩, none⟩]))
        = .ok ⟨⟨"ip-1"⟩, Slice.ofList [none, some ⟨⟨"", ""⟩, none⟩]⟩ :=
  have h := parse_schema_forward_compatible asciiFold
  have hext : parse asciiFold (some exampleDocExtended)
      = .ok ⟨⟨"ip-1"⟩, Slice.ofList [some ⟨⟨"p1", "ns1"⟩, some ⟨36864, 92321636352⟩⟩]⟩ :=
    (h.2.2.2.1 exampleDoc exampleDocExtended exampleDoc_extended).trans h.2.2.2.2
  ⟨(h.1 exampleDocExtended).mp ⟨_, hext⟩, hext, h.2.1 exampleDocExtended (by decide),
   h.2.2.1 "ip-1" [none, some ⟨⟨"", ""⟩, none⟩] (by decide)⟩

/-! ## Invocations one after the other, and overlapping -/

theorem stepAt_append_start (c : Nat) (rest : List Phase) :
    ∀ (ds : List Phase),
      runSchedule [ds.length, ds.length, ds.length] c (ds ++ .start :: rest)
        = (c + 1, ds ++ .done (c + 1) :: rest) := by
  have hstep : ∀ (ds : List Phase) (c2 : Nat) (p : Phase),
      stepAt ds.length c2 (ds ++ p :: rest) = ((p.step c2).1, ds ++ (p.step c2).2 :: rest) := by
    intro ds
    induction ds with
    | nil => intro c2 p; rfl
    | cons d ds ih =>
      intro c2 p
      simp only [List.length_cons, List.cons_append, stepAt, List.append_eq, ih]
  intro ds
  simp only [runSchedule, hstep, Phase.step]

theorem runSchedule_append (s1 s2 : List Nat) :
    ∀ (c : Nat) (ps : List Phase),
      runSchedule (s1 ++ s2) c ps
        = runSchedule s2 (runSchedule s1 c ps).1 (runSchedule s1 c ps).2 := by
  induction s1 with
  | nil => intro c ps; rfl
  | cons i s1 ih => intro c ps; simp only [List.cons_append, runSchedule, List.append_eq, ih]

theorem runSchedule_oneByOne (m : Nat) :
    ∀ (t : Nat) (ds : List Phase),
      runSchedule (oneByOne ds.length m) t (ds ++ List.replicate m .start)
        = (t + m, ds ++ doneFrom t m) := by
  induction m with
  | zero => intro t ds; rfl
  | succ m ih =>
    intro t ds
    have h3 := stepAt_append_start t (List.replicate m .start) ds
    have hrun : runSchedule (oneByOne ds.length (m + 1)) t (ds ++ List.replicate (m + 1) .start)
        = runSchedule (oneByOne (ds.length + 1) m) (t + 1)
            (ds ++ .done (t + 1) :: List.replicate m .start) := by
      have hsplit : oneByOne ds.length (m + 1)
          = [ds.length, ds.length, ds.length] ++ oneByOne (ds.length + 1) m := rfl
      rw [hsplit, runSchedule_append, List.replicate_succ, h3]
    rw [hrun]
    have ih2 := ih (t + 1) (ds ++ [.done (t + 1)])
    simp only [List.length_append, List.length_singleton, List.append_assoc,
      List.singleton_append] at ih2
    rw [ih2]
    simp only [doneFrom]
    congr 1
    omega

theorem runCalls_counted (fold : String → String) (ip tp : String) (tmo : Int) (envs : List Env)
    (hall : ∀ env ∈ envs, CountedFailure env ip tp tmo) :
    ∀ t : Nat,
      finalScraper fold ((NewScraper ip tp tmo).atTally t) (envs.map Call.collect)
        = (NewScraper ip tp tmo).atTally (t + envs.length)
      ∧ counterValues (allEmitted
          (runCalls fold ((NewScraper ip tp tmo).atTally t) (envs.map Call.collect)))
        = talliesFrom t envs.length := by
  induction envs with
  | nil => intro t; exact ⟨rfl, rfl⟩
  | cons env envs ih =>
    intro t
    obtain ⟨tok, hurl, htok, hfail⟩ := hall env (List.mem_cons_self _ _)
    obtain ⟨type, line, hc⟩ := Collect_counted fold env ip tp tmo t tok hurl htok hfail
    obtain ⟨ih1, ih2⟩ := ih (fun e he => hall e (List.mem_cons_of_mem _ he)) (t + 1)
    constructor
    · simp only [List.map_cons, finalScraper, invoke, hc, if_true, ih1, List.length_cons]
      congr 1
      omega
    · simp only [List.map_cons, runCalls, invoke, hc, if_true, allEmitted, counterValues_append,
        ih2, List.length_cons, talliesFrom]
      rfl

theorem past_append (xs ys : List Phase) : past (xs ++ ys) = past xs + past ys := by
  induction xs with
  | nil => simp [past]
  | cons p xs ih => cases p <;> simp only [List.cons_append, past, List.append_eq, ih] <;> omega

theorem past_le_length (ps : List Phase) : past ps ≤ ps.length := by
  induction ps with
  | nil => exact Nat.le_refl 0
  | cons p ps ih => cases p <;> simp only [past, List.length_cons] <;> omega

theorem stepAt_decomp (ps : List Phase) :
    ∀ (i c : Nat), stepAt i c ps = (c, ps)
      ∨ ∃ pre p post, ps = pre ++ p :: post
          ∧ stepAt i c ps = ((p.step c).1, pre ++ (p.step c).2 :: post) := by
  induction ps with
  | nil => intro i c; exact Or.inl (by cases i <;> rfl)
  | cons q qs ih =>
    intro i c
    cases i with
    | zero => exact Or.inr ⟨[], q, qs, rfl, rfl⟩
    | succ i =>
      rcases ih i c with h | ⟨pre, p, post, hps, hst⟩
      · left
        simp only [stepAt, h]
      · right
        refine ⟨q :: pre, p, post, by rw [hps]; rfl, ?_⟩
        simp only [stepAt, hst, List.cons_append]

theorem stepAt_length (ps : List Phase) (i c : Nat) : (stepAt i c ps).2.length = ps.length := by
  rcases stepAt_decomp ps i c with h | ⟨pre, p, post, hps, hst⟩
  · rw [h]
  · rw [hst, hps]
    simp

theorem stepAt_inv (t c : Nat) (ps : List Phase) (i : Nat) (h : PoolInv t c ps) :
    PoolInv t (stepAt i c ps).1 (stepAt i c ps).2 := by
  rcases stepAt_decomp ps i c with h0 | ⟨pre, p, post, hps, hst⟩
  · rw [h0]; exact h
  · rw [hst]
    subst hps
    obtain ⟨h1, h2, h3, h4⟩ := h
    simp only [past_append] at h2 h3 h4
    cases p with
    | start =>
      simp only [Phase.step, PoolInv, past_append, past] at h2 h3 h4 ⊢
      refine ⟨h1, by omega, fun hp => h3 (by omega), ?_⟩
      intro v hv
      simp only [List.mem_append, List.mem_cons, Phase.loaded.injEq] at hv
      rcases hv with hv | hv | hv
      · exact h4 v (List.mem_append.mpr (Or.inl hv))
      · subst hv; exact ⟨h1, by omega⟩
      · exact h4 v (List.mem_append.mpr (Or.inr (List.mem_cons_of_mem _ hv)))
    | loaded tmp =>
      have htmp := h4 tmp (List.mem_append.mpr (Or.inr (List.mem_cons_self _ _)))
      simp only [Phase.step, PoolInv, past_append, past] at h2 h3 h4 htmp ⊢
      refine ⟨by omega, by omega, fun _ => by omega, ?_⟩
      intro v hv
      simp only [List.mem_append, List.mem_cons] at hv
      rcases hv with hv | hv | hv
      · have := h4 v (List.mem_append.mpr (Or.inl hv)); omega
      · cases hv
      · have := h4 v (List.mem_append.mpr (Or.inr (List.mem_cons_of_mem _ hv))); omega
    | stored =>
      simp only [Phase.step, PoolInv, past_append, past] at h2 h3 h4 ⊢
      refine ⟨h1, by omega, fun _ => h3 (by omega), ?_⟩
      intro v hv
      simp only [List.mem_append, List.mem_cons] at hv
      rcases hv with hv | hv | hv
      · exact h4 v (List.mem_append.mpr (Or.inl hv))
      · cases hv
      · exact h4 v (List.mem_append.mpr (Or.inr (List.mem_cons_of_mem _ hv)))
    | done value =>
      simp only [Phase.step, PoolInv, past_append, past] at h2 h3 h4 ⊢
      exact ⟨h1, h2, h3, h4⟩

theorem runSchedule_inv (sched : List Nat) :
    ∀ (t c : Nat) (ps : List Phase), PoolInv t c ps →
      PoolInv t (runSchedule sched c ps).1 (runSchedule sched c ps).2
      ∧ (runSchedule sched c ps).2.length = ps.length := by
  induction sched with
  | nil => intro t c ps h; exact ⟨h, rfl⟩
  | cons i rest ih =>
    intro t c ps h
    obtain ⟨h1, h2⟩ := ih t _ _ (stepAt_inv t c ps i h)
    exact ⟨h1, h2.trans (stepAt_length ps i c)⟩

theorem past_pos_of_finished (ps : List Phase) (hf : finished ps = true) (hk : 0 < ps.length) :
    0 < past ps := by
  cases ps with
  | nil => cases hk
  | cons p ps =>
    simp only [finished, List.all_cons, Bool.and_eq_true] at hf
    cases p with
    | done value => simp [past]
    | _ => simp at hf

theorem poolInv_start (t k : Nat) : PoolInv t t (List.replicate k .start) := by
  have hp : past (List.replicate k Phase.start) = 0 := by
    induction k with
    | zero => rfl
    | succ k ih => simpa [List.replicate_succ, past] using ih
  refine ⟨Nat.le_refl t, by omega, fun h => by omega, ?_⟩
  intro v hv
  have := List.eq_of_mem_replicate hv
  cases this

/-- **C10 (as stated, refuted).** Two failing invocations that overlap on a
collector at tally 0: both read 0, both write 1, both send the value 1. Both
have finished, and the tally is 1, not `0 + 2`: an increment is lost. -/
theorem overlapping_increment_lost :
    runSchedule [0, 1, 0, 1, 0, 1] 0 [.start, .start] = (1, [.done 1, .done 1])
    ∧ (runSchedule [0, 1, 0, 1, 0, 1] 0 [.start, .start]).1 ≠ 0 + 2 := by
  decide

/-- **C10 (amended).** The tally is a plain field updated without atomic
increment or lock. For invocations that do not overlap the count is exact: `k`
failing invocations run one after the other from the tally `t` leave the tally
at `t + k` and send the values `t + 1`, ..., `t + k`, each the tally right
after its own increment, both in the interleaving model and for `Collect`
itself on every list of worlds in which the fetch fails in transport, by
status or in the body read. When invocations overlap increments can be lost:
whatever the schedule, `k` failing invocations leave the tally between `t` and
`t + k`, and above `t` once all of them (at least one) have finished. -/
theorem sequential_failures_counted (fold : String → String) (ip tp : String) (tmo : Int)
    (t : Nat) (envs : List Env) (hall : ∀ env ∈ envs, CountedFailure env ip tp tmo) :
    runSchedule (oneByOne 0 envs.length) t (List.replicate envs.length .start)
        = (t + envs.length, doneFrom t envs.length)
    ∧ (finalScraper fold ((NewScraper ip tp tmo).atTally t) (envs.map Call.collect)).errCnt
        = t + envs.length
    ∧ counterValues (allEmitted
        (runCalls fold ((NewScraper ip tp tmo).atTally t) (envs.map Call.collect)))
        = talliesFrom t envs.length
    ∧ (∀ (sched : List Nat) (k : Nat),
        t ≤ (runSchedule sched t (List.replicate k .start)).1
        ∧ (runSchedule sched t (List.replicate k .start)).1 ≤ t + k
        ∧ (finished (runSchedule sched t (List.replicate k .start)).2 = true → 0 < k →
            t + 1 ≤ (runSchedule sched t (List.replicate k .start)).1)) := by
  refine ⟨?_, ?_, (runCalls_counted fold ip tp tmo envs hall t).2, ?_⟩
  · simpa using runSchedule_oneByOne envs.length t []
  · rw [(runCalls_counted fold ip tp tmo envs hall t).1]
    rfl
  · intro sched k
    obtain ⟨⟨h1, h2, h3, _⟩, hlen⟩ :=
      runSchedule_inv sched t t (List.replicate k .start) (poolInv_start t k)
    have hle := past_le_length (runSchedule sched t (List.replicate k .start)).2
    rw [hlen, List.length_replicate] at hle
    refine ⟨h1, by omega, fun hf hk => h3 ?_⟩
    apply past_pos_of_finished _ hf
    rw [hlen, List.length_replicate]
    exact hk

theorem sequential_failures_counted_witness :
    runSchedule (oneByOne 0 2) 3 [.start, .start] = (5, [.done 4, .done 5])
    ∧ (finalScraper asciiFold ((NewScraper "n" "/t" 5).atTally 3)
        [Call.collect envDown, Call.collect (envAnswering ⟨503, some none⟩)]).errCnt = 5
    ∧ counterValues (allEmitted (runCalls asciiFold ((NewScraper "n" "/t" 5).atTally 3)
        [Call.collect envDown, Call.collect (envAnswering ⟨503, some none⟩)])) = [4, 5]
    ∧ (∀ (sched : List Nat) (k : Nat),
        3 ≤ (runSchedule sched 3 (List.replicate k .start)).1
        ∧ (runSchedule sched 3 (List.replicate k .start)).1 ≤ 3 + k
        ∧ (finished (runSchedule sched 3 (List.replicate k .start)).2 = true → 0 < k →
            3 + 1 ≤ (runSchedule sched 3 (List.replicate k .start)).1)) :=
  sequential_failures_counted asciiFold "n" "/t" 5 3 [envDown, envAnswering ⟨503, some none⟩]
    (fun env henv => by
      simp only [List.mem_cons, List.mem_singleton, List.not_mem_nil, or_false] at henv
      rcases henv with h | h
      · subst h
        exact ⟨"tok", rfl, rfl, Or.inl rfl⟩
      · subst h
        exact ⟨"tok", rfl, rfl, Or.inr ⟨⟨503, some none⟩, rfl, Or.inl (by decide)⟩⟩)

theorem describe_two_static_descriptors_witness :
    Describe (Collect asciiFold envDown (NewScraper "n" "/t" 5)).scraper =
      ([⟨"kube_pod_ephemeral_storage_used_bytes", "Ephemeral storage used in bytes",
          ["node", "namespace", "pod"]⟩,
        ⟨"kubelet_summary_exporter_errors", "Errors scraping kubelet stats summary", ["type"]⟩],
       (Collect asciiFold envDown (NewScraper "n" "/t" 5)).scraper) :=
  (describe_two_static_descriptors asciiFold "n" "/t" 5).2 [Call.collect envDown]
    (Collect asciiFold envDown (NewScraper "n" "/t" 5)) (List.mem_singleton.mpr rfl)

end KSE
